import Mathlib

/-!
Verification of the pq-fsr reference implementation (`src/pqfsr/ratchet.py`).

The Python reference is embedded shallowly.  Byte strings are modelled by the
symbolic algebra `B` below: SHA-256, HMAC-SHA256 and the keystream cipher are
treated as ideal primitives (no collisions), which matches the specification's
intent; concatenation, truncation and slicing are explicit constructors, and
every draw from the session RNG (`os.urandom` / the injected `random_bytes`)
is a fresh symbol indexed by a per-session stream id and a draw counter.
All state mutation of the Python code is made explicit: each operation takes a
state and returns the (possibly partially) updated state together with its
result, so a raised `ValueError` corresponds to an `Except.error` carrying the
exception message, with the mutations performed before the raise kept.
-/

set_option maxRecDepth 8000

/-- Decidable equality for `Except` results, so that concrete runs of the
model can be settled by `decide`. -/
instance {ε α : Type} [DecidableEq ε] [DecidableEq α] : DecidableEq (Except ε α) :=
  fun x y =>
    match x, y with
    | .ok a, .ok b =>
        if h : a = b then .isTrue (by rw [h]) else .isFalse (by simp [h])
    | .error a, .error b =>
        if h : a = b then .isTrue (by rw [h]) else .isFalse (by simp [h])
    | .ok _, .error _ => .isFalse (by simp)
    | .error _, .ok _ => .isFalse (by simp)

namespace PQFSR

/-- Symbolic byte strings.  `lit` is a concrete list of byte values, `rnd sid k n`
is the `k`-th draw (of `n` bytes) from RNG stream `sid`, `cat` is concatenation,
`sha`/`hmacB` are the ideal hash and MAC, `take n` is the prefix `[:n]`,
`slice s e` an irreducible slice `[s:e]`, and `xorKs key nonce p` is the result
of XOR-ing `p` with the keystream expanded from `(key, nonce)`
(`_expand_keystream` in the source). -/
inductive B where
  | lit : List Nat → B
  | rnd : Nat → Nat → Nat → B
  | cat : B → B → B
  | sha : B → B
  | hmacB : B → B → B
  | take : Nat → B → B
  | slice : Nat → Nat → B → B
  | xorKs : B → B → B → B
  deriving DecidableEq

/-- Byte length of a symbolic byte string. -/
def blen : B → Nat
  | .lit l => l.length
  | .rnd _ _ n => n
  | .cat a b => blen a + blen b
  | .sha _ => 32
  | .hmacB _ _ => 32
  | .take n m => min n (blen m)
  | .slice s e m => min e (blen m) - min s (blen m)
  | .xorKs _ _ p => blen p

/-- Python slicing `b[start:stop]` on symbolic byte strings (non-negative
indices, as used by `InMemoryKEM.decapsulate`). -/
def bslice : Nat → Nat → B → B
  | start, stop, .lit l => .lit ((l.drop start).take (stop - start))
  | start, stop, .cat a b =>
      if stop ≤ blen a then bslice start stop a
      else if blen a ≤ start then bslice (start - blen a) (stop - blen a) b
      else .cat (bslice start (blen a) a) (bslice 0 (stop - blen a) b)
  | start, stop, m => if start = 0 ∧ blen m ≤ stop then m else .slice start stop m

/-- Injective encoding of byte lists into `Nat` (used only to give `B` the
total order that models Python's lexicographic comparison of `bytes` in
`sorted`). -/
def encList : List Nat → Nat
  | [] => 0
  | x :: xs => Nat.pair x (encList xs) + 1

/-- Injective encoding of `B` into `Nat`; any total order works to model
`sorted([ld, rd])`, since both peers sort the same two digests. -/
def enc : B → Nat
  | .lit l => Nat.pair 0 (encList l)
  | .rnd s c n => Nat.pair 1 (Nat.pair s (Nat.pair c n))
  | .cat a b => Nat.pair 2 (Nat.pair (enc a) (enc b))
  | .sha m => Nat.pair 3 (enc m)
  | .hmacB k m => Nat.pair 4 (Nat.pair (enc k) (enc m))
  | .take n m => Nat.pair 5 (Nat.pair n (enc m))
  | .slice s e m => Nat.pair 6 (Nat.pair s (Nat.pair e (enc m)))
  | .xorKs k n p => Nat.pair 7 (Nat.pair (enc k) (Nat.pair (enc n) (enc p)))

/-- ASCII bytes of `"pqfsr-pk"`. -/
def PK_TAG : B := .lit [112, 113, 102, 115, 114, 45, 112, 107]

/-- ASCII bytes of `"pqfsr-ss"`. -/
def SS_TAG : B := .lit [112, 113, 102, 115, 114, 45, 115, 115]

/-- ASCII bytes of `"PQFSR"` (KEM ciphertext framing prefix bytes). -/
def PQFSR_TAG : List Nat := [80, 81, 70, 83, 82]

/-- ASCII bytes of `"PQ-FSR-sem"`. -/
def SEM_TAG : B := .lit [80, 81, 45, 70, 83, 82, 45, 115, 101, 109]

/-- ASCII bytes of `"CHAIN|A2B"` (`_LABEL_A_TO_B`). -/
def LABEL_A2B : B := .lit [67, 72, 65, 73, 78, 124, 65, 50, 66]

/-- ASCII bytes of `"CHAIN|B2A"` (`_LABEL_B_TO_A`). -/
def LABEL_B2A : B := .lit [67, 72, 65, 73, 78, 124, 66, 50, 65]

/-- ASCII bytes of `"SEND"` (`_DIRECTION_SEND`). -/
def SEND_BYTES : List Nat := [83, 69, 78, 68]

/-- ASCII bytes of `"MSG"`. -/
def MSG_BYTES : List Nat := [77, 83, 71]

/-- ASCII bytes of `"CHAIN"`. -/
def CHAIN_BYTES : List Nat := [67, 72, 65, 73, 78]

/-- ASCII bytes of `"NONCE"`. -/
def NONCE_BYTES : List Nat := [78, 79, 78, 67, 69]

/-- The 32 zero bytes used when there is no previous root. -/
def ZEROS32 : B := .lit (List.replicate 32 0)

/-- Big-endian 8-byte encoding `counter.to_bytes(8, "big")`. -/
def be8 (n : Nat) : List Nat :=
  [n / 2 ^ 56 % 256, n / 2 ^ 48 % 256, n / 2 ^ 40 % 256, n / 2 ^ 32 % 256,
   n / 2 ^ 24 % 256, n / 2 ^ 16 % 256, n / 2 ^ 8 % 256, n % 256]

/-- The block loop of `_hkdf`: each block is
`HMAC(prk, previous ‖ info ‖ bytes([counter]))`. -/
def hkdfBlocks (prk info : B) : Nat → B → Nat → List B
  | 0, _, _ => []
  | n + 1, previous, counter =>
      let blk := B.hmacB prk (.cat previous (.cat info (.lit [counter])))
      blk :: hkdfBlocks prk info n blk (counter + 1)

/-- Model of `b"".join(blocks)`. -/
def catList : List B → B
  | [] => .lit []
  | [b] => b
  | b :: rest => .cat b (catList rest)

/-- Model of `_hkdf` (simplified HKDF using HMAC-SHA256); the `while` loop
produces 32-byte blocks until `length` bytes are available, i.e.
`⌈length/32⌉` blocks.  (All call sites use `length = 32`.) -/
def hkdf (secret salt info : B) (length : Nat) : B :=
  let prk := B.hmacB salt secret
  B.take length (catList (hkdfBlocks prk info ((length + 31) / 32) (.lit []) 1))

/-- Model of `_mix_root`. -/
def mixRoot (previousRoot : Option B) (sharedSecret semanticDigest : B) : B :=
  .sha (.cat (previousRoot.getD ZEROS32) (.cat sharedSecret semanticDigest))

/-- Model of `_derive_chain_seed`. -/
def deriveChainSeed (rootKey semanticDigest label : B) : B :=
  hkdf rootKey semanticDigest label 32

/-- Model of `_derive_message_material`: returns
`(message_key, next_chain, nonce)`. -/
def deriveMessageMaterial (chainKey : B) (counter : Nat) : B × B × B :=
  let base := B.cat chainKey (.cat (.lit (be8 counter)) (.lit SEND_BYTES))
  (.sha (.cat base (.lit MSG_BYTES)), .sha (.cat base (.lit CHAIN_BYTES)),
   .take 16 (.sha (.cat base (.lit NONCE_BYTES))))

/-- Model of `_compute_semantic_tag`. -/
def computeSemanticTag (combinedDigest : B) (counter : Nat) : B :=
  .take 16 (.sha (.cat combinedDigest (.cat (.lit (be8 counter)) (.lit SEND_BYTES))))

/-- XOR-ing a byte string with the keystream expanded from `(key, nonce)`
(`_expand_keystream` followed by the byte-wise XOR).  XOR-ing a masked string
with the same keystream again recovers the original bytes; any other
combination yields an (ideal) unrelated masked string. -/
def unmask (key nonce : B) : B → B
  | .xorKs k0 n0 p =>
      if k0 = key ∧ n0 = nonce then p else .xorKs key nonce (.xorKs k0 n0 p)
  | c => .xorKs key nonce c

/-- Public key derived from a private key in `InMemoryKEM.generate_key_pair`:
`SHA-256(b"pqfsr-pk" + private)`. -/
def pkOf (priv : B) : B := .sha (.cat PK_TAG priv)

/-- Model of `InMemoryKEM.generate_key_pair`, drawing the private key from the
session RNG; returns `(public, private)`. -/
def kemGenerateKeyPair (sid ctr : Nat) : B × B :=
  let priv := B.rnd sid ctr 32
  (pkOf priv, priv)

/-- Model of `InMemoryKEM.encapsulate`; returns `(ciphertext, shared)` where
`ciphertext = b"PQFSR" + eph + public_key` and
`shared = SHA-256(b"pqfsr-ss" + public_key + eph)`. -/
def kemEncapsulate (publicKey : B) (sid ctr : Nat) : B × B :=
  let eph := B.rnd sid ctr 32
  (.cat (.lit PQFSR_TAG) (.cat eph publicKey), .sha (.cat SS_TAG (.cat publicKey eph)))

/-- Model of `InMemoryKEM.decapsulate`: rejects ciphertexts shorter than 37
bytes, else recomputes the shared secret from `eph = ciphertext[5:37]` and
the public key derived from the private key. -/
def kemDecapsulate (ciphertext privateKey : B) : Except String B :=
  if blen ciphertext < 5 + 32 then .error "ciphertext too short"
  else .ok (.sha (.cat SS_TAG (.cat (pkOf privateKey) (bslice 5 37 ciphertext))))

/-- Model of the `RatchetState` dataclass. -/
structure RatchetState where
  root_key : B
  send_chain_key : B
  recv_chain_key : B
  send_label : B
  recv_label : B
  send_count : Nat
  recv_count : Nat
  local_ratchet_private : B
  local_ratchet_public : B
  remote_ratchet_public : Option B
  combined_digest : B
  local_digest : B
  remote_digest : Option B
  skipped_message_keys : List (Nat × B × B)
  max_skip : Nat
  deriving DecidableEq

/-- Lookup-and-remove, modelling `dict.pop(idx, None)` on the skipped-key map
(a Python `dict` with unique keys, represented in insertion order). -/
def dictPop : List (Nat × B × B) → Nat → Option (B × B) × List (Nat × B × B)
  | [], _ => (none, [])
  | e :: rest, k =>
      if e.1 = k then (some (e.2.1, e.2.2), rest)
      else
        let r := dictPop rest k
        (r.1, e :: r.2)

/-- Model of `dict.__setitem__`: replace in place if the key is present,
else append. -/
def dictInsert : List (Nat × B × B) → Nat → B × B → List (Nat × B × B)
  | [], k, v => [(k, v.1, v.2)]
  | e :: rest, k, v =>
      if e.1 = k then (k, v.1, v.2) :: rest else e :: dictInsert rest k v

/-- Model of `sorted(dict.keys())[0]`, the smallest stored message index.
(On an empty dict Python would raise `IndexError`; that is unreachable in the
source because eviction only happens when the cache holds at least
`max_skip ≥ 1` entries.) -/
def minKeyOf : List (Nat × B × B) → Nat
  | [] => 0
  | [e] => e.1
  | e :: rest => min e.1 (minKeyOf rest)

/-- Model of `ForwardRatchet._store_skipped_key`: when the cache already holds
at least `max_skip` entries the entry with the smallest index is popped, then
the new entry is inserted. -/
def storeSkippedKey (st : RatchetState) (idx : Nat) (messageKey nonce : B) :
    RatchetState :=
  let cache :=
    if st.max_skip ≤ st.skipped_message_keys.length then
      (dictPop st.skipped_message_keys (minKeyOf st.skipped_message_keys)).2
    else st.skipped_message_keys
  { st with skipped_message_keys := dictInsert cache idx (messageKey, nonce) }

/-- The header dict built by `ForwardRatchet.encrypt`. -/
structure Header where
  version : Nat
  count : Nat
  ratchet_pub : B
  kem_ciphertext : B
  semantic_tag : B
  deriving DecidableEq

/-- The packet dict returned by `ForwardRatchet.encrypt`: besides the header
and ciphertext it carries the clear-text `auth_tag` and `nonce` fields. -/
structure Packet where
  header : Header
  ciphertext : B
  auth_tag : B
  nonce : B
  deriving DecidableEq

/-- Model of `ForwardRatchet.encrypt`.  `sid`/`ctr` locate the session RNG;
the call consumes two draws (the encapsulation ephemeral and the new local
ratchet private key).  Note that the source performs a KEM pulse on every
send: it encapsulates to `remote_ratchet_public`, mixes the root, re-derives
both chain keys and rotates the local ratchet keypair unconditionally. -/
def ratchetEncrypt (st : RatchetState) (plaintext associatedData : B)
    (sid ctr : Nat) : Except String (Packet × RatchetState × Nat) :=
  match st.remote_ratchet_public with
  | none => .error "Remote ratchet public key missing"
  | some remotePub =>
      let enc := kemEncapsulate remotePub sid ctr
      let root' := mixRoot (some st.root_key) enc.2 st.combined_digest
      let sendSeed := deriveChainSeed root' st.combined_digest st.send_label
      let recvSeed := deriveChainSeed root' st.combined_digest st.recv_label
      let pair := kemGenerateKeyPair sid (ctr + 1)
      let mat := deriveMessageMaterial sendSeed st.send_count
      let ciphertext := B.xorKs mat.1 mat.2.2 plaintext
      let authTag := B.hmacB mat.1 (.cat ciphertext (.cat associatedData mat.2.2))
      let semTag := computeSemanticTag st.combined_digest st.send_count
      let header : Header :=
        { version := 1, count := st.send_count, ratchet_pub := pair.1,
          kem_ciphertext := enc.1, semantic_tag := semTag }
      let st' :=
        { st with
          root_key := root'
          send_chain_key := mat.2.1
          recv_chain_key := recvSeed
          local_ratchet_private := pair.2
          local_ratchet_public := pair.1
          send_count := st.send_count + 1 }
      .ok (⟨header, ciphertext, authTag, mat.2.2⟩, st', ctr + 2)

/-- The `while state.recv_count < message_index` loop of
`ForwardRatchet.decrypt`, with fuel `message_index - recv_count`: derive the
material for the current receive index, store it in the skipped cache and
advance the chain and counter. -/
def skipLoop : Nat → RatchetState → RatchetState
  | 0, st => st
  | n + 1, st =>
      let mat := deriveMessageMaterial st.recv_chain_key st.recv_count
      let st1 := storeSkippedKey { st with recv_chain_key := mat.2.1 }
        st.recv_count mat.1 mat.2.2
      skipLoop n { st1 with recv_count := st1.recv_count + 1 }

/-- The shared tail of `ForwardRatchet.decrypt`: XOR the ciphertext with the
recomputed keystream and verify the HMAC authentication tag. -/
def finishDecrypt (st : RatchetState) (messageKey nonce : B) (pkt : Packet)
    (associatedData : B) : Except String B × RatchetState :=
  let plaintext := unmask messageKey nonce pkt.ciphertext
  let expected := B.hmacB messageKey (.cat pkt.ciphertext (.cat associatedData nonce))
  if expected = pkt.auth_tag then (.ok plaintext, st)
  else (.error "Authentication tag mismatch", st)

/-- Model of `ForwardRatchet.decrypt`.  The returned state reflects exactly the
mutations the Python code performed before returning or raising. -/
def ratchetDecrypt (st : RatchetState) (pkt : Packet) (associatedData : B) :
    Except String B × RatchetState :=
  let i := pkt.header.count
  if i < st.recv_count then
    match dictPop st.skipped_message_keys i with
    | (none, _) => (.error "Message already processed", st)
    | (some cached, rest) =>
        let st1 := { st with skipped_message_keys := rest }
        if cached.2 = pkt.nonce then
          finishDecrypt st1 cached.1 cached.2 pkt associatedData
        else (.error "Nonce mismatch", st1)
  else
    if computeSemanticTag st.combined_digest i = pkt.header.semantic_tag then
      match kemDecapsulate pkt.header.kem_ciphertext st.local_ratchet_private with
      | .error e => (.error e, st)
      | .ok sharedSecret =>
          let root' := mixRoot (some st.root_key) sharedSecret st.combined_digest
          let st1 :=
            { st with
              root_key := root'
              remote_ratchet_public := some pkt.header.ratchet_pub
              send_chain_key := deriveChainSeed root' st.combined_digest st.send_label
              recv_chain_key := deriveChainSeed root' st.combined_digest st.recv_label }
          let st2 := skipLoop (i - st1.recv_count) st1
          let mat := deriveMessageMaterial st2.recv_chain_key st2.recv_count
          let st3 := { st2 with recv_chain_key := mat.2.1, recv_count := st2.recv_count + 1 }
          if mat.2.2 = pkt.nonce then
            finishDecrypt st3 mat.1 mat.2.2 pkt associatedData
          else (.error "Nonce mismatch", st3)
    else (.error "Semantic tag mismatch", st)

/-- Model of `ForwardRatchet.bootstrap`; `ctr` is the RNG draw counter, which
advances only when no `local_key_pair` is supplied. -/
def bootstrap (sharedSecret combinedDigest localDigest : B)
    (remoteDigest : Option B) (isInitiator : Bool)
    (localKeyPair : Option (B × B)) (maxSkip : Nat) (sid ctr : Nat) :
    RatchetState × Nat :=
  let root := mixRoot none sharedSecret combinedDigest
  let sendLabel := if isInitiator then LABEL_A2B else LABEL_B2A
  let recvLabel := if isInitiator then LABEL_B2A else LABEL_A2B
  let pair := match localKeyPair with
    | none => (kemGenerateKeyPair sid ctr, ctr + 1)
    | some p => (p, ctr)
  ({ root_key := root
     send_chain_key := deriveChainSeed root combinedDigest sendLabel
     recv_chain_key := deriveChainSeed root combinedDigest recvLabel
     send_label := sendLabel
     recv_label := recvLabel
     send_count := 0
     recv_count := 0
     local_ratchet_private := pair.1.2
     local_ratchet_public := pair.1.1
     remote_ratchet_public := none
     combined_digest := combinedDigest
     local_digest := localDigest
     remote_digest := remoteDigest
     skipped_message_keys := []
     max_skip := maxSkip }, pair.2)

/-- The `_pending_handshake` dict stored by `create_handshake_request`. -/
structure PendingHandshake where
  kem_private : B
  ratchet_private : B
  ratchet_public : B
  handshake_id : B
  deriving DecidableEq

/-- A handshake request dict (initiator → responder). -/
structure Request where
  version : B
  handshake_id : B
  kem_public : B
  ratchet_public : B
  semantic_digest : B
  deriving DecidableEq

/-- A handshake response dict (responder → initiator). -/
structure Response where
  version : B
  handshake_id : B
  kem_ciphertext : B
  ratchet_public : B
  semantic_digest : B
  deriving DecidableEq

/-- Model of `RatchetSession`.  `sid` identifies the session's RNG stream and
`rctr` counts the draws made so far (the session, its `ForwardRatchet` and its
`InMemoryKEM` share one `random_bytes` source). -/
structure Session where
  is_initiator : Bool
  semantic_hint : B
  max_skip : Nat
  sid : Nat
  rctr : Nat
  state : Option RatchetState
  ready : Bool
  pending : Option PendingHandshake
  remote_digest : Option B
  handshake_id : Option B
  local_digest : B
  deriving DecidableEq

/-- The wire version constant `b"\x00\x00\x00\x01"`. -/
def VERSION1 : B := .lit [0, 0, 0, 1]

/-- Default `max_skip` (`_MAX_SKIP_DEFAULT = 32`). -/
def MAX_SKIP_DEFAULT : Nat := 32

/-- Model of `RatchetSession.__init__` / `create_initiator` /
`create_responder`. -/
def mkSession (isInitiator : Bool) (semanticHint : B) (maxSkip sid : Nat) :
    Session :=
  { is_initiator := isInitiator
    semantic_hint := semanticHint
    max_skip := maxSkip
    sid := sid
    rctr := 0
    state := none
    ready := false
    pending := none
    remote_digest := none
    handshake_id := none
    local_digest := .sha (.cat SEM_TAG semanticHint) }

/-- Model of `RatchetSession._combine_digest`:
`SHA-256(ordered[0] + ordered[1])` where `ordered = sorted([local, remote])`;
Python's lexicographic order on the digest bytes is modelled by the total
order `enc`. -/
def combineDigest (localDigest remoteDigest : B) : B :=
  if enc localDigest ≤ enc remoteDigest then .sha (.cat localDigest remoteDigest)
  else .sha (.cat remoteDigest localDigest)

/-- Model of `RatchetSession.create_handshake_request` (three RNG draws: the
KEM private key, the ratchet private key, the 16-byte handshake id). -/
def createHandshakeRequest (s : Session) : Except String (Request × Session) :=
  if ¬ s.is_initiator then .error "Only initiators can create handshake requests"
  else if s.ready then .error "Handshake already completed"
  else if s.pending.isSome then .error "Handshake already pending"
  else
    let kemPair := kemGenerateKeyPair s.sid s.rctr
    let ratchetPair := kemGenerateKeyPair s.sid (s.rctr + 1)
    let handshakeId := B.rnd s.sid (s.rctr + 2) 16
    let pending : PendingHandshake :=
      { kem_private := kemPair.2, ratchet_private := ratchetPair.2,
        ratchet_public := ratchetPair.1, handshake_id := handshakeId }
    .ok ({ version := VERSION1, handshake_id := handshakeId,
           kem_public := kemPair.1, ratchet_public := ratchetPair.1,
           semantic_digest := s.local_digest },
         { s with rctr := s.rctr + 3, pending := some pending })

/-- Model of `RatchetSession.accept_handshake` (two RNG draws: the
encapsulation ephemeral and the local ratchet private key). -/
def acceptHandshake (s : Session) (req : Request) :
    Except String (Response × Session) :=
  if s.is_initiator then .error "Initiator cannot accept handshake"
  else if s.ready then .error "Handshake already completed"
  else
    let remoteDigest := req.semantic_digest
    let combined := combineDigest s.local_digest remoteDigest
    let enc := kemEncapsulate req.kem_public s.sid s.rctr
    let pair := kemGenerateKeyPair s.sid (s.rctr + 1)
    let boot := bootstrap enc.2 combined s.local_digest (some remoteDigest)
      false (some pair) s.max_skip s.sid (s.rctr + 2)
    let st := { boot.1 with remote_ratchet_public := some req.ratchet_public }
    .ok ({ version := VERSION1, handshake_id := req.handshake_id,
           kem_ciphertext := enc.1, ratchet_public := pair.1,
           semantic_digest := s.local_digest },
         { s with rctr := s.rctr + 2, state := some st, ready := true,
                  remote_digest := some remoteDigest,
                  handshake_id := some req.handshake_id })

/-- Model of `RatchetSession.finalize_handshake` (no RNG draws). -/
def finalizeHandshake (s : Session) (resp : Response) : Except String Session :=
  if s.is_initiator = false then .error "Responder cannot finalize handshake"
  else if s.ready then .error "Handshake already completed"
  else
    match s.pending with
    | none => .error "No pending handshake"
    | some pending =>
        if pending.handshake_id ≠ resp.handshake_id then
          .error "Handshake identifier mismatch"
        else
          match kemDecapsulate resp.kem_ciphertext pending.kem_private with
          | .error e => .error e
          | .ok sharedSecret =>
              let remoteDigest := resp.semantic_digest
              let combined := combineDigest s.local_digest remoteDigest
              let boot := bootstrap sharedSecret combined s.local_digest
                (some remoteDigest) true
                (some (pending.ratchet_public, pending.ratchet_private))
                s.max_skip s.sid s.rctr
              let st := { boot.1 with remote_ratchet_public := some resp.ratchet_public }
              .ok { s with state := some st, ready := true,
                           remote_digest := some remoteDigest,
                           handshake_id := some resp.handshake_id,
                           pending := none }

/-- Model of the `is_ready` property. -/
def isReady (s : Session) : Bool := s.ready && s.state.isSome

/-- Model of `RatchetSession.encrypt`. -/
def sessionEncrypt (s : Session) (plaintext associatedData : B) :
    Except String (Packet × Session) :=
  match s.state with
  | none => .error "Session not ready"
  | some st =>
      if s.ready then
        match ratchetEncrypt st plaintext associatedData s.sid s.rctr with
        | .error e => .error e
        | .ok out => .ok (out.1, { s with state := some out.2.1, rctr := out.2.2 })
      else .error "Session not ready"

/-- Model of `RatchetSession.decrypt`. -/
def sessionDecrypt (s : Session) (pkt : Packet) (associatedData : B) :
    Except String B × Session :=
  match s.state with
  | none => (.error "Session not ready", s)
  | some st =>
      if s.ready then
        let r := ratchetDecrypt st pkt associatedData
        (r.1, { s with state := some r.2 })
      else (.error "Session not ready", s)

/-- The dict `export_state` serializes with `json.dumps`, with the fields in
source order.  `json.dumps` is a deterministic injective function of this
record (hex round-trips raw bytes, the key order is fixed), so byte equality
of two exported blobs is equivalent to equality of the two payload records;
the model therefore works at the payload level. -/
structure ExportPayload where
  root_key : B
  send_chain_key : B
  recv_chain_key : B
  send_label : B
  recv_label : B
  send_count : Nat
  recv_count : Nat
  local_ratchet_private : B
  local_ratchet_public : B
  remote_ratchet_public : Option B
  combined_digest : B
  local_digest : B
  remote_digest : Option B
  skipped_keys : List (Nat × B × B)
  max_skip : Nat
  semantic_hint : B
  is_initiator : Bool
  deriving DecidableEq

/-- Insert into a list sorted by message index (helper for `sortByIdx`). -/
def insertByIdx (x : Nat × B × B) : List (Nat × B × B) → List (Nat × B × B)
  | [] => [x]
  | e :: rest => if x.1 ≤ e.1 then x :: e :: rest else e :: insertByIdx x rest

/-- Model of `sorted(state.skipped_message_keys.items())` (the skipped-key
indices are unique, so sorting by index is sorting the items). -/
def sortByIdx : List (Nat × B × B) → List (Nat × B × B)
  | [] => []
  | e :: rest => insertByIdx e (sortByIdx rest)

/-- Model of the Python truthiness test `x.hex() if x else None` applied to an
optional byte string (`None` and `b""` both serialize as `null`). -/
def hexOrNull (x : Option B) : Option B :=
  match x with
  | none => none
  | some b => if blen b = 0 then none else some b

/-- Model of `RatchetSession.export_state`. -/
def exportState (s : Session) : Except String ExportPayload :=
  match s.state with
  | none => .error "Session not ready"
  | some st =>
      if s.ready then
        .ok { root_key := st.root_key
              send_chain_key := st.send_chain_key
              recv_chain_key := st.recv_chain_key
              send_label := st.send_label
              recv_label := st.recv_label
              send_count := st.send_count
              recv_count := st.recv_count
              local_ratchet_private := st.local_ratchet_private
              local_ratchet_public := st.local_ratchet_public
              remote_ratchet_public := hexOrNull st.remote_ratchet_public
              combined_digest := st.combined_digest
              local_digest := st.local_digest
              remote_digest := hexOrNull st.remote_digest
              skipped_keys := sortByIdx st.skipped_message_keys
              max_skip := st.max_skip
              semantic_hint := s.semantic_hint
              is_initiator := s.is_initiator }
      else .error "Session not ready"

/-- Model of `RatchetSession.from_serialized`; `sid` is the RNG stream of the
restored session (`random_bytes` argument). -/
def fromSerialized (p : ExportPayload) (sid : Nat) : Session :=
  let st : RatchetState :=
    { root_key := p.root_key
      send_chain_key := p.send_chain_key
      recv_chain_key := p.recv_chain_key
      send_label := p.send_label
      recv_label := p.recv_label
      send_count := p.send_count
      recv_count := p.recv_count
      local_ratchet_private := p.local_ratchet_private
      local_ratchet_public := p.local_ratchet_public
      remote_ratchet_public := p.remote_ratchet_public
      combined_digest := p.combined_digest
      local_digest := p.local_digest
      remote_digest := p.remote_digest
      skipped_message_keys := p.skipped_keys
      max_skip := p.max_skip }
  { mkSession p.is_initiator p.semantic_hint p.max_skip sid with
    state := some st
    ready := true
    local_digest := st.local_digest
    remote_digest := st.remote_digest
    handshake_id := none }

/-- Modelled from the spec: the process-wide handshake replay cache of §4.4,
"a key→timestamp map keyed by handshake_id", is implemented in the Rust core
`pqfsr_core` (absent from the Python reference in `src`, whose
`accept_handshake` performs no replay check; only the cache's tests and its
Python callers are in the tree).  Entries map a 16-byte handshake id to the
insertion timestamp in Unix seconds. -/
structure ReplayCache where
  entries : List (B × Nat)
  deriving DecidableEq

/-- Modelled from the spec: opportunistic eviction on insert — "any entry
older than TTL is purged". -/
def purgeOld (now ttl : Nat) (l : List (B × Nat)) : List (B × Nat) :=
  l.filter (fun e => now - e.2 ≤ ttl)

/-- Membership test of a handshake id in the replay cache. -/
def cacheHas : List (B × Nat) → B → Bool
  | [], _ => false
  | e :: rest, k => if e.1 = k then true else cacheHas rest k

/-- Modelled from the spec: `accept_handshake` guarded by the replay cache —
one critical section performing (purge, peek, insert) atomically, rejecting
"any handshake_id already present within TTL" with `HandshakeReplay`, then
delegating to the source `accept_handshake`. -/
def replayGuardAccept (cache : ReplayCache) (now ttl : Nat) (s : Session)
    (req : Request) : Except String (Response × Session × ReplayCache) :=
  let purged := purgeOld now ttl cache.entries
  if cacheHas purged req.handshake_id then .error "HandshakeReplay"
  else
    match acceptHandshake s req with
    | .error e => .error e
    | .ok out => .ok (out.1, out.2, ⟨(req.handshake_id, now) :: purged⟩)

/-- The replay-cache contents after a successful guarded accept. -/
def cacheAfterAccept (cache : ReplayCache) (now ttl : Nat) (req : Request) :
    ReplayCache :=
  ⟨(req.handshake_id, now) :: purgeOld now ttl cache.entries⟩

/-- A complete handshake: the initiator (RNG stream `sidA`) creates the
request, the responder (RNG stream `sidB`) accepts it, and the initiator
finalizes the response.  Returns the two ready sessions `(initiator,
responder)`. -/
def runHandshake (hintA hintB : B) (sidA sidB : Nat) :
    Except String (Session × Session) :=
  match createHandshakeRequest (mkSession true hintA MAX_SKIP_DEFAULT sidA) with
  | .error e => .error e
  | .ok (req, alice) =>
      match acceptHandshake (mkSession false hintB MAX_SKIP_DEFAULT sidB) req with
      | .error e => .error e
      | .ok (resp, bob) =>
          match finalizeHandshake alice resp with
          | .error e => .error e
          | .ok alice' => .ok (alice', bob)

/-- Composition used for claim C1: handshake, one `encrypt` by the initiator,
one `decrypt` by the responder. -/
def c1Pipeline (hintA hintB : B) (sidA sidB : Nat) (plaintext associatedData : B) :
    Except String B :=
  match runHandshake hintA hintB sidA sidB with
  | .error e => .error e
  | .ok (alice, bob) =>
      match sessionEncrypt alice plaintext associatedData with
      | .error e => .error e
      | .ok (pkt, _) => (sessionDecrypt bob pkt associatedData).1

/-- Encrypt a list of plaintexts in order with one ratchet state, collecting
the emitted packets. -/
def sendAll (st : RatchetState) (sid ctr : Nat) (ps : List B)
    (associatedData : B) : List Packet × RatchetState × Nat :=
  match ps with
  | [] => ([], st, ctr)
  | p :: rest =>
      match ratchetEncrypt st p associatedData sid ctr with
      | .error _ => ([], st, ctr)
      | .ok out =>
          let r := sendAll out.2.1 sid out.2.2 rest associatedData
          (out.1 :: r.1, r.2.1, r.2.2)

/-- Decrypt a list of packets in order with one ratchet state, stopping at the
first error. -/
def recvAll (st : RatchetState) (pkts : List Packet) (associatedData : B) :
    Except String (List B) × RatchetState :=
  match pkts with
  | [] => (.ok [], st)
  | pkt :: rest =>
      match ratchetDecrypt st pkt associatedData with
      | (.ok p, st') =>
          match recvAll st' rest associatedData with
          | (.ok ps, stF) => (.ok (p :: ps), stF)
          | (.error e, stF) => (.error e, stF)
      | (.error e, st') => (.error e, st')

/-- The pairing invariant between a sender's and a receiver's ratchet state
that in-order operation maintains: equal roots and combined digests, the
sender's send label is the receiver's receive label, aligned counters, the
sender encapsulates to the receiver's current ratchet public key, and the
receiver's skipped cache is empty. -/
def Paired (sa sb : RatchetState) : Prop :=
  sa.root_key = sb.root_key ∧
  sa.combined_digest = sb.combined_digest ∧
  sa.send_label = sb.recv_label ∧
  sa.send_count = sb.recv_count ∧
  sa.remote_ratchet_public = some (pkOf sb.local_ratchet_private) ∧
  sb.skipped_message_keys = []

instance (sa sb : RatchetState) : Decidable (Paired sa sb) := by
  unfold Paired
  exact inferInstance

/-- ASCII bytes of `"alice"`. -/
def HINT_ALICE : B := .lit [97, 108, 105, 99, 101]

/-- ASCII bytes of `"bob"`. -/
def HINT_BOB : B := .lit [98, 111, 98]

/-- Fallback state used only to destructure `Except`/`Option` results of the
concrete scenarios. -/
def dummyState : RatchetState :=
  { root_key := .lit [], send_chain_key := .lit [], recv_chain_key := .lit []
    send_label := .lit [], recv_label := .lit [], send_count := 0, recv_count := 0
    local_ratchet_private := .lit [], local_ratchet_public := .lit []
    remote_ratchet_public := none, combined_digest := .lit []
    local_digest := .lit [], remote_digest := none
    skipped_message_keys := [], max_skip := MAX_SKIP_DEFAULT }

/-- Fallback session for destructuring concrete scenario results. -/
def dummySession : Session := mkSession true (.lit []) MAX_SKIP_DEFAULT 0

/-- The concrete completed handshake used by the witnesses: hints `b"alice"`
and `b"bob"`, RNG streams 0 and 1. -/
def hsW : Session × Session :=
  match runHandshake HINT_ALICE HINT_BOB 0 1 with
  | .ok s => s
  | .error _ => (dummySession, dummySession)

/-- The initiator's ratchet state right after the concrete handshake. -/
def aliceStW : RatchetState := (hsW.1.state).getD dummyState

/-- The responder's ratchet state right after the concrete handshake. -/
def bobStW : RatchetState := (hsW.2.state).getD dummyState

/-- Scenario for claim C3 (the spec's out-of-order test, §8 scenario 2):
`max_skip = 10`; the initiator encrypts `b"msg-0" .. b"msg-4"`; the responder
then decrypts the *last* packet first.  Returns that first out-of-order
decryption result. -/
def c3OutOfOrderRun : Except String B × RatchetState :=
  let sa := { aliceStW with max_skip := 10 }
  let sb := { bobStW with max_skip := 10 }
  let msgs : List B :=
    [.lit [109, 115, 103, 45, 48], .lit [109, 115, 103, 45, 49],
     .lit [109, 115, 103, 45, 50], .lit [109, 115, 103, 45, 51],
     .lit [109, 115, 103, 45, 52]]
  let sent := sendAll sa hsW.1.sid hsW.1.rctr msgs (.lit [])
  match sent.1.getLast? with
  | some pkt4 => ratchetDecrypt sb pkt4 (.lit [])
  | none => (.error "unreachable", sb)

/-- Semantic digest of a hint, `SHA-256(b"PQ-FSR-sem" + semantic_hint)`. -/
def hsLocalDigest (hint : B) : B := .sha (.cat SEM_TAG hint)

/-- The handshake shared secret: the responder encapsulates (its first RNG
draw) to the initiator's `kem_public` (derived from the initiator's first
draw). -/
def hsSharedSecret (sidA sidB : Nat) : B :=
  .sha (.cat SS_TAG (.cat (pkOf (.rnd sidA 0 32)) (.rnd sidB 0 32)))

/-- The KEM ciphertext carried by the handshake response. -/
def hsKemCiphertext (sidA sidB : Nat) : B :=
  .cat (.lit PQFSR_TAG) (.cat (.rnd sidB 0 32) (pkOf (.rnd sidA 0 32)))

/-- The initiator's ratchet state at the end of `runHandshake`, in closed
form. -/
def aliceStHS (hA hB : B) (sidA sidB : Nat) : RatchetState :=
  { root_key := mixRoot none (hsSharedSecret sidA sidB)
      (combineDigest (hsLocalDigest hA) (hsLocalDigest hB))
    send_chain_key := deriveChainSeed
      (mixRoot none (hsSharedSecret sidA sidB)
        (combineDigest (hsLocalDigest hA) (hsLocalDigest hB)))
      (combineDigest (hsLocalDigest hA) (hsLocalDigest hB)) LABEL_A2B
    recv_chain_key := deriveChainSeed
      (mixRoot none (hsSharedSecret sidA sidB)
        (combineDigest (hsLocalDigest hA) (hsLocalDigest hB)))
      (combineDigest (hsLocalDigest hA) (hsLocalDigest hB)) LABEL_B2A
    send_label := LABEL_A2B
    recv_label := LABEL_B2A
    send_count := 0
    recv_count := 0
    local_ratchet_private := .rnd sidA 1 32
    local_ratchet_public := pkOf (.rnd sidA 1 32)
    remote_ratchet_public := some (pkOf (.rnd sidB 1 32))
    combined_digest := combineDigest (hsLocalDigest hA) (hsLocalDigest hB)
    local_digest := hsLocalDigest hA
    remote_digest := some (hsLocalDigest hB)
    skipped_message_keys := []
    max_skip := MAX_SKIP_DEFAULT }

/-- The responder's ratchet state at the end of `runHandshake`, in closed
form (it computes the combined digest with its own arguments reversed). -/
def bobStHS (hA hB : B) (sidA sidB : Nat) : RatchetState :=
  { root_key := mixRoot none (hsSharedSecret sidA sidB)
      (combineDigest (hsLocalDigest hB) (hsLocalDigest hA))
    send_chain_key := deriveChainSeed
      (mixRoot none (hsSharedSecret sidA sidB)
        (combineDigest (hsLocalDigest hB) (hsLocalDigest hA)))
      (combineDigest (hsLocalDigest hB) (hsLocalDigest hA)) LABEL_B2A
    recv_chain_key := deriveChainSeed
      (mixRoot none (hsSharedSecret sidA sidB)
        (combineDigest (hsLocalDigest hB) (hsLocalDigest hA)))
      (combineDigest (hsLocalDigest hB) (hsLocalDigest hA)) LABEL_A2B
    send_label := LABEL_B2A
    recv_label := LABEL_A2B
    send_count := 0
    recv_count := 0
    local_ratchet_private := .rnd sidB 1 32
    local_ratchet_public := pkOf (.rnd sidB 1 32)
    remote_ratchet_public := some (pkOf (.rnd sidA 1 32))
    combined_digest := combineDigest (hsLocalDigest hB) (hsLocalDigest hA)
    local_digest := hsLocalDigest hB
    remote_digest := some (hsLocalDigest hA)
    skipped_message_keys := []
    max_skip := MAX_SKIP_DEFAULT }

/-- The initiator's session at the end of `runHandshake`, in closed form. -/
def aliceHS (hA hB : B) (sidA sidB : Nat) : Session :=
  { is_initiator := true
    semantic_hint := hA
    max_skip := MAX_SKIP_DEFAULT
    sid := sidA
    rctr := 3
    state := some (aliceStHS hA hB sidA sidB)
    ready := true
    pending := none
    remote_digest := some (hsLocalDigest hB)
    handshake_id := some (.rnd sidA 2 16)
    local_digest := hsLocalDigest hA }

/-- The responder's session at the end of `runHandshake`, in closed form. -/
def bobHS (hA hB : B) (sidA sidB : Nat) : Session :=
  { is_initiator := false
    semantic_hint := hB
    max_skip := MAX_SKIP_DEFAULT
    sid := sidB
    rctr := 2
    state := some (bobStHS hA hB sidA sidB)
    ready := true
    pending := none
    remote_digest := some (hsLocalDigest hA)
    handshake_id := some (.rnd sidA 2 16)
    local_digest := hsLocalDigest hB }

/-- Fallback packet used only to destructure concrete scenario results. -/
def dummyPkt : Packet :=
  ⟨⟨0, 0, .lit [], .lit [], .lit []⟩, .lit [], .lit [], .lit []⟩

/-- The keys stored in a skipped-key cache. -/
def dictKeys (l : List (Nat × B × B)) : List Nat := l.map Prod.fst

/-- The per-message material the fresh-index path of `decrypt` derives for a
packet after the root mix and the skip loop (mirrors lines 245-257 of the
source); its third component is the nonce `decrypt` compares against the
packet's `nonce` field. -/
def freshMaterial (st : RatchetState) (pkt : Packet) (sharedSecret : B) :
    B × B × B :=
  let root' := mixRoot (some st.root_key) sharedSecret st.combined_digest
  let st1 :=
    { st with
      root_key := root'
      remote_ratchet_public := some pkt.header.ratchet_pub
      send_chain_key := deriveChainSeed root' st.combined_digest st.send_label
      recv_chain_key := deriveChainSeed root' st.combined_digest st.recv_label }
  let st2 := skipLoop (pkt.header.count - st1.recv_count) st1
  deriveMessageMaterial st2.recv_chain_key st2.recv_count

/-- Composition used for claim C9: handshake, one message from the initiator
to the responder, export of the responder, restore from the exported payload,
then the restored session decrypts the initiator's next packet. -/
def c9Pipeline (hA hB : B) (sidA sidB : Nat) (p1 p2 ad : B) (sidR : Nat) :
    Except String B :=
  match runHandshake hA hB sidA sidB with
  | .error e => .error e
  | .ok (alice, bob) =>
      match sessionEncrypt alice p1 ad with
      | .error e => .error e
      | .ok (pkt1, alice1) =>
          let r := sessionDecrypt bob pkt1 ad
          match r.1 with
          | .error e => .error e
          | .ok _ =>
              match exportState r.2 with
              | .error e => .error e
              | .ok pay =>
                  match sessionEncrypt alice1 p2 ad with
                  | .error e => .error e
                  | .ok (pkt2, _) => (sessionDecrypt (fromSerialized pay sidR) pkt2 ad).1

/-- Concrete request used by the C5 witness (initiator `b"alice"`, stream 0). -/
def reqW : Request :=
  match createHandshakeRequest (mkSession true HINT_ALICE MAX_SKIP_DEFAULT 0) with
  | .ok out => out.1
  | .error _ => ⟨.lit [], .lit [], .lit [], .lit [], .lit []⟩

/-- Concrete full cache state used by the C6 witness (`max_skip = 3`, three
entries with indices 7, 2, 9). -/
def stFullW : RatchetState :=
  { dummyState with
    max_skip := 3
    skipped_message_keys :=
      [(7, .lit [1], .lit [2]), (2, .lit [3], .lit [4]), (9, .lit [5], .lit [6])] }

/-- Concrete state with one cached skipped key (index 3) used by the C8 and
C10 witnesses. -/
def stCachedW : RatchetState :=
  { dummyState with
    recv_count := 5
    remote_ratchet_public := some (.lit [1])
    skipped_message_keys := [(3, .lit [11], .lit [22])] }

/-- Packet addressed to the cached index 3 of `stCachedW` whose nonce matches
the cached nonce but whose authentication tag is invalid. -/
def pktBadTagW : Packet :=
  ⟨⟨1, 3, .lit [], .lit [], .lit []⟩, .lit [5], .lit [9], .lit [22]⟩

/-- Packet addressed to the cached index 3 of `stCachedW` whose nonce differs
from the cached nonce. -/
def pktBadNonceW : Packet :=
  ⟨⟨1, 3, .lit [], .lit [], .lit []⟩, .lit [5], .lit [9], .lit [23]⟩

/-- The first packet of the concrete post-handshake exchange (plaintext
`[7, 7]`, empty associated data). -/
def pkt1W : Packet :=
  match sessionEncrypt hsW.1 (.lit [7, 7]) (.lit []) with
  | .ok out => out.1
  | .error _ => dummyPkt

/-- `pkt1W` with its header count tampered to a far-future value. -/
def pktFutureW : Packet := { pkt1W with header := { pkt1W.header with count := 999 } }

/-- `pkt1W` with its clear-text nonce field tampered. -/
def pktNonceTamperW : Packet := { pkt1W with nonce := .lit [0] }

/-- The responder's state after decrypting `pkt1W` in the concrete run. -/
def bobSt1W : RatchetState := (ratchetDecrypt bobStW pkt1W (.lit [])).2

/-- The exported payload of the concrete responder session right after the
handshake. -/
def payW : ExportPayload :=
  match exportState hsW.2 with
  | .ok p => p
  | .error _ =>
      ⟨.lit [], .lit [], .lit [], .lit [], .lit [], 0, 0, .lit [], .lit [],
       none, .lit [], .lit [], none, [], 0, .lit [], true⟩

/-- The two packets sent in the concrete C7 witness run. -/
def sentW : List Packet × RatchetState × Nat :=
  sendAll (aliceStHS HINT_ALICE HINT_BOB 0 1) 0 3 [.lit [1], .lit [2]] (.lit [])

/-- The first packet of the concrete C7 witness run. -/
def sentW0 : Packet := sentW.1.getD 0 dummyPkt

/-! Theorems.  First the generic lemmas about the symbolic byte algebra, then
the protocol lemmas, then one theorem per claim (with witnesses). -/

theorem encList_inj : ∀ {a b : List Nat}, encList a = encList b → a = b := by
  intro a
  induction a with
  | nil => intro b h; cases b <;> simp [encList] at h ⊢
  | cons x xs ih =>
      intro b h
      cases b with
      | nil => simp [encList] at h
      | cons y ys =>
          simp only [encList, Nat.add_right_cancel_iff, Nat.pair_eq_pair] at h
          rw [h.1, ih h.2]

theorem enc_inj : ∀ (x y : B), enc x = enc y → x = y := by
  intro x
  induction x with
  | lit l =>
      intro y h
      cases y <;> simp [enc, Nat.pair_eq_pair] at h
      rw [encList_inj h]
  | rnd s c n =>
      intro y h
      cases y <;> simp [enc, Nat.pair_eq_pair] at h
      rw [h.1, h.2.1, h.2.2]
  | cat a b iha ihb =>
      intro y h
      cases y <;> simp [enc, Nat.pair_eq_pair] at h
      rw [iha _ h.1, ihb _ h.2]
  | sha m ih =>
      intro y h
      cases y <;> simp [enc, Nat.pair_eq_pair] at h
      rw [ih _ h]
  | hmacB k m ihk ihm =>
      intro y h
      cases y <;> simp [enc, Nat.pair_eq_pair] at h
      rw [ihk _ h.1, ihm _ h.2]
  | take n m ih =>
      intro y h
      cases y <;> simp [enc, Nat.pair_eq_pair] at h
      rw [h.1, ih _ h.2]
  | slice s e m ih =>
      intro y h
      cases y <;> simp [enc, Nat.pair_eq_pair] at h
      rw [h.1, h.2.1, ih _ h.2.2]
  | xorKs k n p ihk ihn ihp =>
      intro y h
      cases y <;> simp [enc, Nat.pair_eq_pair] at h
      rw [ihk _ h.1, ihn _ h.2.1, ihp _ h.2.2]

/-- Both peers sort the same two semantic digests, so the combined digest does
not depend on which peer computes it. -/
theorem combineDigest_comm (a b : B) : combineDigest a b = combineDigest b a := by
  rcases Nat.lt_trichotomy (enc a) (enc b) with h | h | h
  · have h2 : ¬ enc b ≤ enc a := not_le.mpr h
    simp [combineDigest, le_of_lt h, h2]
  · rw [enc_inj a b h]
  · have h2 : ¬ enc a ≤ enc b := not_le.mpr h
    simp [combineDigest, le_of_lt h, h2]

theorem blen_pkOf (x : B) : blen (pkOf x) = 32 := rfl

/-- Slicing `ciphertext[5:37]` out of a well-formed KEM ciphertext recovers
the 32-byte ephemeral. -/
theorem bslice_kem_ct (s c : Nat) (pk : B) :
    bslice 5 37 (.cat (.lit PQFSR_TAG) (.cat (.rnd s c 32) pk)) = .rnd s c 32 := by
  simp [bslice, blen, PQFSR_TAG]

/-- Decapsulating a well-formed KEM ciphertext recomputes the encapsulated
shared secret from the receiver's private key. -/
theorem kemDecapsulate_ct (s c : Nat) (pk sk : B) :
    kemDecapsulate (.cat (.lit PQFSR_TAG) (.cat (.rnd s c 32) pk)) sk
      = .ok (.sha (.cat SS_TAG (.cat (pkOf sk) (.rnd s c 32)))) := by
  have hlen : ¬ blen (B.cat (.lit PQFSR_TAG) (.cat (.rnd s c 32) pk)) < 5 + 32 := by
    simp only [blen, PQFSR_TAG, List.length_cons, List.length_nil]
    omega
  simp only [kemDecapsulate, if_neg hlen, bslice_kem_ct]

/-- One in-order message between paired states, fully explicitly: the sender's
`encrypt` pulses and emits a packet whose decryption by the paired receiver
recovers the plaintext, and the two successor states are again paired (all
record fields spelled out).  Every send pulses, so both peers mix the fresh
shared secret into the root and re-derive the chains before deriving the
per-message material at the (aligned) counter. -/
theorem pairedStep
    (root cd sl rl sckA rckA : B) (cnt rcA : Nat)
    (lprivA lpubA ldA : B) (rdA : Option B)
    (skipA : List (Nat × B × B)) (msA : Nat)
    (sckB rckB slB : B) (scB : Nat) (skB lpubB : B) (remB : Option B)
    (ldB : B) (rdB : Option B) (msB : Nat)
    (p ad : B) (sid c : Nat) :
    ratchetEncrypt
        ⟨root, sckA, rckA, sl, rl, cnt, rcA, lprivA, lpubA, some (pkOf skB),
         cd, ldA, rdA, skipA, msA⟩ p ad sid c
      = .ok
        (⟨⟨1, cnt, pkOf (.rnd sid (c + 1) 32),
           .cat (.lit PQFSR_TAG) (.cat (.rnd sid c 32) (pkOf skB)),
           computeSemanticTag cd cnt⟩,
          .xorKs
            (deriveMessageMaterial
              (deriveChainSeed
                (mixRoot (some root)
                  (.sha (.cat SS_TAG (.cat (pkOf skB) (.rnd sid c 32)))) cd)
                cd sl) cnt).1
            (deriveMessageMaterial
              (deriveChainSeed
                (mixRoot (some root)
                  (.sha (.cat SS_TAG (.cat (pkOf skB) (.rnd sid c 32)))) cd)
                cd sl) cnt).2.2 p,
          .hmacB
            (deriveMessageMaterial
              (deriveChainSeed
                (mixRoot (some root)
                  (.sha (.cat SS_TAG (.cat (pkOf skB) (.rnd sid c 32)))) cd)
                cd sl) cnt).1
            (.cat
              (.xorKs
                (deriveMessageMaterial
                  (deriveChainSeed
                    (mixRoot (some root)
                      (.sha (.cat SS_TAG (.cat (pkOf skB) (.rnd sid c 32)))) cd)
                    cd sl) cnt).1
                (deriveMessageMaterial
                  (deriveChainSeed
                    (mixRoot (some root)
                      (.sha (.cat SS_TAG (.cat (pkOf skB) (.rnd sid c 32)))) cd)
                    cd sl) cnt).2.2 p)
              (.cat ad
                (deriveMessageMaterial
                  (deriveChainSeed
                    (mixRoot (some root)
                      (.sha (.cat SS_TAG (.cat (pkOf skB) (.rnd sid c 32)))) cd)
                    cd sl) cnt).2.2)),
          (deriveMessageMaterial
            (deriveChainSeed
              (mixRoot (some root)
                (.sha (.cat SS_TAG (.cat (pkOf skB) (.rnd sid c 32)))) cd)
              cd sl) cnt).2.2⟩,
         ⟨mixRoot (some root)
            (.sha (.cat SS_TAG (.cat (pkOf skB) (.rnd sid c 32)))) cd,
          (deriveMessageMaterial
            (deriveChainSeed
              (mixRoot (some root)
                (.sha (.cat SS_TAG (.cat (pkOf skB) (.rnd sid c 32)))) cd)
              cd sl) cnt).2.1,
          deriveChainSeed
            (mixRoot (some root)
              (.sha (.cat SS_TAG (.cat (pkOf skB) (.rnd sid c 32)))) cd)
            cd rl,
          sl, rl, cnt + 1, rcA, .rnd sid (c + 1) 32, pkOf (.rnd sid (c + 1) 32),
          some (pkOf skB), cd, ldA, rdA, skipA, msA⟩,
         c + 2)
  ∧ ratchetDecrypt
        ⟨root, sckB, rckB, slB, sl, scB, cnt, skB, lpubB, remB, cd, ldB, rdB,
         [], msB⟩
        ⟨⟨1, cnt, pkOf (.rnd sid (c + 1) 32),
          .cat (.lit PQFSR_TAG) (.cat (.rnd sid c 32) (pkOf skB)),
          computeSemanticTag cd cnt⟩,
         .xorKs
           (deriveMessageMaterial
             (deriveChainSeed
               (mixRoot (some root)
                 (.sha (.cat SS_TAG (.cat (pkOf skB) (.rnd sid c 32)))) cd)
               cd sl) cnt).1
           (deriveMessageMaterial
             (deriveChainSeed
               (mixRoot (some root)
                 (.sha (.cat SS_TAG (.cat (pkOf skB) (.rnd sid c 32)))) cd)
               cd sl) cnt).2.2 p,
         .hmacB
           (deriveMessageMaterial
             (deriveChainSeed
               (mixRoot (some root)
                 (.sha (.cat SS_TAG (.cat (pkOf skB) (.rnd sid c 32)))) cd)
               cd sl) cnt).1
           (.cat
             (.xorKs
               (deriveMessageMaterial
                 (deriveChainSeed
                   (mixRoot (some root)
                     (.sha (.cat SS_TAG (.cat (pkOf skB) (.rnd sid c 32)))) cd)
                   cd sl) cnt).1
               (deriveMessageMaterial
                 (deriveChainSeed
                   (mixRoot (some root)
                     (.sha (.cat SS_TAG (.cat (pkOf skB) (.rnd sid c 32)))) cd)
                   cd sl) cnt).2.2 p)
             (.cat ad
               (deriveMessageMaterial
                 (deriveChainSeed
                   (mixRoot (some root)
                     (.sha (.cat SS_TAG (.cat (pkOf skB) (.rnd sid c 32)))) cd)
                   cd sl) cnt).2.2)),
         (deriveMessageMaterial
           (deriveChainSeed
             (mixRoot (some root)
               (.sha (.cat SS_TAG (.cat (pkOf skB) (.rnd sid c 32)))) cd)
             cd sl) cnt).2.2⟩
        ad
      = (.ok p,
         ⟨mixRoot (some root)
            (.sha (.cat SS_TAG (.cat (pkOf skB) (.rnd sid c 32)))) cd,
          deriveChainSeed
            (mixRoot (some root)
              (.sha (.cat SS_TAG (.cat (pkOf skB) (.rnd sid c 32)))) cd)
            cd slB,
          (deriveMessageMaterial
            (deriveChainSeed
              (mixRoot (some root)
                (.sha (.cat SS_TAG (.cat (pkOf skB) (.rnd sid c 32)))) cd)
              cd sl) cnt).2.1,
          slB, sl, scB, cnt + 1, skB, lpubB, some (pkOf (.rnd sid (c + 1) 32)),
          cd, ldB, rdB, [], msB⟩) := by
  constructor
  · rfl
  · simp only [ratchetDecrypt, Nat.lt_irrefl, if_false, kemDecapsulate_ct,
      Nat.sub_self, skipLoop, finishDecrypt, unmask]
    simp

/-- The handshake always succeeds and produces exactly the closed-form
sessions. -/
theorem runHandshake_eq (hA hB : B) (sidA sidB : Nat) :
    runHandshake hA hB sidA sidB
      = .ok (aliceHS hA hB sidA sidB, bobHS hA hB sidA sidB) := by
  simp [runHandshake, mkSession, createHandshakeRequest, acceptHandshake,
    finalizeHandshake, kemGenerateKeyPair, kemEncapsulate, bootstrap,
    aliceHS, bobHS, aliceStHS, bobStHS, hsLocalDigest, hsSharedSecret,
    hsKemCiphertext, MAX_SKIP_DEFAULT, kemDecapsulate_ct, pkOf]

/-- Round-trip of a single in-order message between paired states, with the
facts about the receiver's successor state needed downstream. -/
theorem pairedRoundtrip (sa sb : RatchetState) (p ad : B) (sid c : Nat)
    (hP : Paired sa sb) :
    ∃ out, ratchetEncrypt sa p ad sid c = .ok out ∧
      out.2.2 = c + 2 ∧
      out.1.header.count = sa.send_count ∧
      out.2.1.send_count = sa.send_count + 1 ∧
      (ratchetDecrypt sb out.1 ad).1 = .ok p ∧
      Paired out.2.1 (ratchetDecrypt sb out.1 ad).2 ∧
      (ratchetDecrypt sb out.1 ad).2.recv_count = sb.recv_count + 1 ∧
      (ratchetDecrypt sb out.1 ad).2.skipped_message_keys = [] ∧
      (ratchetDecrypt sb out.1 ad).2.remote_ratchet_public
        = some (pkOf (.rnd sid (c + 1) 32)) ∧
      (ratchetDecrypt sb out.1 ad).2.remote_digest = sb.remote_digest ∧
      (ratchetDecrypt sb out.1 ad).2.max_skip = sb.max_skip := by
  obtain ⟨rootA, sckA, rckA, slA, rlA, cntA, rcA, lprivA, lpubA, remA, cdA,
    ldA, rdA, skipA, msA⟩ := sa
  obtain ⟨rootB, sckB, rckB, slB, rlB, scB, rcB, skB, lpubB, remB, cdB, ldB,
    rdB, skipB, msB⟩ := sb
  simp only [Paired] at hP
  obtain ⟨h1, h2, h3, h4, h5, h6⟩ := hP
  subst h1; subst h2; subst h3; subst h4; subst h5; subst h6
  have hStep := pairedStep rootA cdA slA rlA sckA rckA cntA rcA lprivA lpubA
    ldA rdA skipA msA sckB rckB slB scB skB lpubB remB ldB rdB msB p ad sid c
  refine ⟨_, hStep.1, rfl, rfl, rfl, ?_, ?_, ?_, ?_, ?_, ?_, ?_⟩ <;>
    rw [hStep.2] <;> simp [Paired]

/-- A packet whose index is below `recv_count` and absent from the (empty)
skipped cache is rejected as already processed, with the state unchanged. -/
theorem decrypt_replay (sb : RatchetState) (pkt : Packet) (ad : B)
    (h1 : sb.skipped_message_keys = []) (h2 : pkt.header.count < sb.recv_count) :
    ratchetDecrypt sb pkt ad = (.error "Message already processed", sb) := by
  simp [ratchetDecrypt, h1, h2, dictPop]

/-- In-order transmission of any list of plaintexts between paired states:
all packets decrypt to the sent plaintexts, pairing is maintained, the
receiver's count advances by the number of messages, its skipped cache stays
empty, and the `j`-th packet carries index `recv_count + j`. -/
theorem sendRecvAll_paired (ps : List B) :
    ∀ (sa sb : RatchetState) (sid c : Nat) (ad : B), Paired sa sb →
      (recvAll sb (sendAll sa sid c ps ad).1 ad).1 = .ok ps ∧
      Paired (sendAll sa sid c ps ad).2.1
        (recvAll sb (sendAll sa sid c ps ad).1 ad).2 ∧
      (recvAll sb (sendAll sa sid c ps ad).1 ad).2.recv_count
        = sb.recv_count + ps.length ∧
      (recvAll sb (sendAll sa sid c ps ad).1 ad).2.skipped_message_keys = [] ∧
      (sendAll sa sid c ps ad).1.length = ps.length ∧
      (∀ j pkt, (sendAll sa sid c ps ad).1.get? j = some pkt →
        pkt.header.count = sb.recv_count + j) := by
  induction ps with
  | nil =>
      intro sa sb sid c ad hP
      refine ⟨rfl, hP, rfl, ?_, rfl, ?_⟩
      · exact hP.2.2.2.2.2
      · intro j pkt h
        simp [sendAll] at h
  | cons p rest ih =>
      intro sa sb sid c ad hP
      obtain ⟨out, hE, hc2, hcnt, hsc, hD1, hPaired, hrc, hskip, hrem, hrd, hms⟩ :=
        pairedRoundtrip sa sb p ad sid c hP
      rcases hDec : ratchetDecrypt sb out.1 ad with ⟨rd, stD⟩
      rw [hDec] at hD1 hPaired hrc hskip
      simp only at hD1 hPaired hrc hskip
      subst hD1
      obtain ⟨hRec, hPairF, hrcF, hskipF, hlenF, hcntF⟩ :=
        ih out.2.1 stD sid out.2.2 ad hPaired
      rcases hRA : recvAll stD ((sendAll out.2.1 sid out.2.2 rest ad).1) ad
        with ⟨r, stF⟩
      rw [hRA] at hRec hPairF hrcF hskipF
      simp only at hRec hPairF hrcF hskipF
      subst hRec
      refine ⟨?_, ?_, ?_, ?_, ?_, ?_⟩
      · simp only [sendAll, hE, recvAll, hDec, hRA]
      · simp only [sendAll, hE, recvAll, hDec, hRA]
        exact hPairF
      · simp only [sendAll, hE, recvAll, hDec, hRA, List.length_cons]
        rw [hrcF, hrc]
        omega
      · simp only [sendAll, hE, recvAll, hDec, hRA]
        exact hskipF
      · simp only [sendAll, hE, List.length_cons, hlenF]
      · intro j pkt h
        simp only [sendAll, hE] at h
        match j with
        | 0 =>
            simp only [List.get?] at h
            injection h with h2
            subst h2
            rw [hcnt, hP.2.2.2.1]
            omega
        | j' + 1 =>
            simp only [List.get?] at h
            have hj := hcntF j' pkt h
            rw [hj, hrc]
            omega

/-- C1: for every plaintext `p` and associated data `ad`, once a handshake has
been completed between an initiator and a responder
(`create_handshake_request`, `accept_handshake`, `finalize_handshake`), the
receiving peer's `decrypt` applied to the packet produced by the sending
peer's `encrypt(p, ad)`, with the same `ad`, returns `p`. -/
theorem pqfsr_c1_encrypt_decrypt_roundtrip (hA hB : B) (sidA sidB : Nat)
    (p ad : B) : c1Pipeline hA hB sidA sidB p ad = .ok p := by
  have hP : Paired (aliceStHS hA hB sidA sidB) (bobStHS hA hB sidA sidB) := by
    simp [Paired, aliceStHS, bobStHS,
      combineDigest_comm (hsLocalDigest hB) (hsLocalDigest hA)]
  obtain ⟨out, hE, _, _, _, hD1, _⟩ := pairedRoundtrip _ _ p ad sidA 3 hP
  simp only [c1Pipeline, runHandshake_eq, sessionEncrypt, sessionDecrypt,
    aliceHS, bobHS, hE, hD1]
  simp [hD1]

/-- C2: after a completed handshake (request, accept, finalize), the two
peers' ratchet states agree: their `root_key`s are equal, their
`combined_digest`s are equal, and the chain keys are cross-paired — the
initiator's `send_chain_key` equals the responder's `recv_chain_key` and the
initiator's `recv_chain_key` equals the responder's `send_chain_key`. -/
theorem pqfsr_c2_handshake_state_agreement (hA hB : B) (sidA sidB : Nat) :
    match runHandshake hA hB sidA sidB with
    | .ok s => ∃ sa sb, s.1.state = some sa ∧ s.2.state = some sb ∧
        sa.root_key = sb.root_key ∧
        sa.combined_digest = sb.combined_digest ∧
        sa.send_chain_key = sb.recv_chain_key ∧
        sa.recv_chain_key = sb.send_chain_key
    | .error _ => False := by
  rw [runHandshake_eq]
  refine ⟨aliceStHS hA hB sidA sidB, bobStHS hA hB sidA sidB, rfl, rfl,
    ?_, ?_, ?_, ?_⟩ <;>
    simp [aliceStHS, bobStHS,
      combineDigest_comm (hsLocalDigest hB) (hsLocalDigest hA)]

/-- C3 (divergence between the code and its spec and tests): with
`max_skip = 10`, after the initiator encrypts `b"msg-0"` .. `b"msg-4"`, the
responder's very first out-of-order decryption (of `msg-4`) raises
`ValueError("Nonce mismatch")` instead of recovering the plaintext: every
send is a KEM pulse, so `msg-4` was keyed under the root that mixed all five
shared secrets, while the receiver's decryption of `msg-4` mixes only the
fifth one into its root, deriving a different nonce (and message key). -/
theorem pqfsr_c3_out_of_order_nonce_mismatch :
    c3OutOfOrderRun.1 = .error "Nonce mismatch" := by
  decide

/-- C4: in every packet emitted by `encrypt`, the header fields `ratchet_pub`
and `kem_ciphertext` are non-empty if and only if that send performed a KEM
pulse; when no pulse is performed, both header fields are empty.  In the
source, `encrypt` performs a KEM pulse unconditionally on every send (there
is no non-pulse path), and correspondingly both header fields are always
non-empty: `kem_ciphertext` is the fresh encapsulation to the peer's ratchet
key (mixed into the new root key) and `ratchet_pub` is the newly rotated
local ratchet public key — so the biconditional holds, with its "no pulse"
direction vacuous. -/
theorem pqfsr_c4_packet_always_pulse_fields (st : RatchetState) (p ad : B)
    (sid c : Nat) (rpk : B) (h : st.remote_ratchet_public = some rpk) :
    ∃ pkt st', ratchetEncrypt st p ad sid c = .ok (pkt, st', c + 2) ∧
      0 < blen pkt.header.ratchet_pub ∧
      0 < blen pkt.header.kem_ciphertext ∧
      pkt.header.kem_ciphertext = (kemEncapsulate rpk sid c).1 ∧
      pkt.header.ratchet_pub = (kemGenerateKeyPair sid (c + 1)).1 ∧
      st'.root_key
        = mixRoot (some st.root_key) (kemEncapsulate rpk sid c).2 st.combined_digest := by
  obtain ⟨root, sck, rck, sl, rl, cnt, rc, lpriv, lpub, rem, cd, ld, rd, skip,
    ms⟩ := st
  simp only at h
  subst h
  refine ⟨_, _, rfl, ?_, ?_, rfl, rfl, rfl⟩
  · simp [ratchetEncrypt, kemGenerateKeyPair, pkOf, blen]
  · simp [ratchetEncrypt, kemEncapsulate, blen, PQFSR_TAG]

/-- C4 witness: the responder's post-handshake state of the concrete run has
its peer's ratchet public key installed, and its next send pulses with
non-empty header fields. -/
theorem pqfsr_c4_witness :
    bobStW.remote_ratchet_public = some (pkOf (.rnd 0 1 32)) ∧
    ∃ pkt st', ratchetEncrypt bobStW (.lit [1]) (.lit []) 1 2 = .ok (pkt, st', 2 + 2) ∧
      0 < blen pkt.header.ratchet_pub ∧
      0 < blen pkt.header.kem_ciphertext ∧
      pkt.header.kem_ciphertext = (kemEncapsulate (pkOf (.rnd 0 1 32)) 1 2).1 ∧
      pkt.header.ratchet_pub = (kemGenerateKeyPair 1 3).1 ∧
      st'.root_key = mixRoot (some bobStW.root_key)
        (kemEncapsulate (pkOf (.rnd 0 1 32)) 1 2).2 bobStW.combined_digest :=
  ⟨by decide,
   pqfsr_c4_packet_always_pulse_fields bobStW (.lit [1]) (.lit []) 1 2
     (pkOf (.rnd 0 1 32)) (by decide)⟩

/-- C5 (spec-modelled replay cache): a handshake request accepted once leaves
its `handshake_id` in the process-wide replay cache, and a second
`accept_handshake` of the same request within the TTL — by any responder
session — is rejected with `HandshakeReplay`. -/
theorem pqfsr_c5_handshake_replay_rejected (cache : ReplayCache)
    (now1 now2 ttl : Nat) (s1 s2 : Session) (req : Request)
    (h2 : now2 - now1 ≤ ttl) :
    (∀ out, replayGuardAccept cache now1 ttl s1 req = .ok out →
        out.2.2 = cacheAfterAccept cache now1 ttl req) ∧
    replayGuardAccept (cacheAfterAccept cache now1 ttl req) now2 ttl s2 req
      = .error "HandshakeReplay" := by
  constructor
  · intro out hout
    simp only [replayGuardAccept] at hout
    split at hout
    · exact absurd hout (by simp)
    · rcases hacc : acceptHandshake s1 req with e | o
      · rw [hacc] at hout
        exact absurd hout (by simp)
      · rw [hacc] at hout
        simp only [Except.ok.injEq] at hout
        rw [← hout]
        rfl
  · have h2' : now2 ≤ ttl + now1 := Nat.sub_le_iff_le_add.mp h2
    simp [replayGuardAccept, cacheAfterAccept, purgeOld, cacheHas, h2']

/-- C5 witness: with an empty cache, responder `b"bob"` accepts the concrete
request at time 0; the cache then holds its id, and responder `b"bob2"`
replaying the same request at time 100 (within the 600-second TTL) is
rejected with `HandshakeReplay`. -/
theorem pqfsr_c5_witness :
    100 - 0 ≤ 600 ∧
    replayGuardAccept (cacheAfterAccept ⟨[]⟩ 0 600 reqW) 100 600
      (mkSession false (.lit [98, 111, 98, 50]) MAX_SKIP_DEFAULT 2) reqW
      = .error "HandshakeReplay" :=
  ⟨by decide,
   (pqfsr_c5_handshake_replay_rejected ⟨[]⟩ 0 100 600
     (mkSession false HINT_BOB MAX_SKIP_DEFAULT 1)
     (mkSession false (.lit [98, 111, 98, 50]) MAX_SKIP_DEFAULT 2) reqW
     (by decide)).2⟩

theorem dictInsert_length_le (l : List (Nat × B × B)) (k : Nat) (v : B × B) :
    (dictInsert l k v).length ≤ l.length + 1 := by
  induction l with
  | nil => simp [dictInsert]
  | cons e rest ih =>
      simp only [dictInsert]
      split <;> simp only [List.length_cons] <;> omega

theorem dictPop_length_le (l : List (Nat × B × B)) (k : Nat) :
    (dictPop l k).2.length ≤ l.length := by
  induction l with
  | nil => simp [dictPop]
  | cons e rest ih =>
      simp only [dictPop]
      split <;> simp only [List.length_cons] <;> omega

theorem dictPop_length_of_mem (l : List (Nat × B × B)) (k : Nat)
    (h : k ∈ dictKeys l) : (dictPop l k).2.length + 1 = l.length := by
  induction l with
  | nil => simp [dictKeys] at h
  | cons e rest ih =>
      simp only [dictPop]
      split
      case isTrue => simp
      case isFalse hne =>
          simp only [dictKeys, List.map_cons, List.mem_cons] at h
          rcases h with h | h
          · exact absurd h.symm hne
          · simp only [List.length_cons]
            rw [← ih h]

theorem minKeyOf_mem : ∀ (l : List (Nat × B × B)), l ≠ [] →
    minKeyOf l ∈ dictKeys l := by
  intro l
  match l with
  | [] => intro h; exact absurd rfl h
  | [e] => intro _; simp [minKeyOf, dictKeys]
  | e :: f :: rest =>
      intro _
      have ih := minKeyOf_mem (f :: rest) (by simp)
      simp only [minKeyOf, dictKeys, List.map_cons, List.mem_cons]
      rcases le_total e.1 (minKeyOf (f :: rest)) with h | h
      · left; rw [min_eq_left h]
      · right
        rw [min_eq_right h]
        simpa [dictKeys] using ih

theorem mem_dictKeys_dictInsert (l : List (Nat × B × B)) (k k' : Nat)
    (v : B × B) :
    k' ∈ dictKeys (dictInsert l k v) ↔ k' ∈ dictKeys l ∨ k' = k := by
  induction l with
  | nil => simp [dictInsert, dictKeys]
  | cons e rest ih =>
      simp only [dictInsert]
      split
      case isTrue h =>
          subst h
          simp [dictKeys]
          tauto
      case isFalse h =>
          simp only [dictKeys, List.map_cons, List.mem_cons] at ih ⊢
          rw [ih]
          tauto

theorem dictPop_not_mem_of_nodup (l : List (Nat × B × B)) (k : Nat)
    (hnd : (dictKeys l).Nodup) : k ∉ dictKeys (dictPop l k).2 := by
  induction l with
  | nil => simp [dictPop, dictKeys]
  | cons e rest ih =>
      simp only [dictKeys, List.map_cons, List.nodup_cons] at hnd
      simp only [dictPop]
      split
      case isTrue h =>
          subst h
          simpa [dictKeys] using hnd.1
      case isFalse h =>
          simp only [dictKeys, List.map_cons, List.mem_cons]
          push_neg
          exact ⟨fun he => h he.symm, ih hnd.2⟩

theorem mem_dictPop_of_ne (l : List (Nat × B × B)) (k k' : Nat)
    (hne : k' ≠ k) (h : k' ∈ dictKeys l) : k' ∈ dictKeys (dictPop l k).2 := by
  induction l with
  | nil => simp [dictKeys] at h
  | cons e rest ih =>
      simp only [dictKeys, List.map_cons, List.mem_cons] at h
      simp only [dictPop]
      split
      case isTrue heq =>
          rcases h with h | h
          · exact absurd (h.trans heq) hne
          · simpa [dictKeys] using h
      case isFalse heq =>
          simp only [dictKeys, List.map_cons, List.mem_cons]
          rcases h with h | h
          · exact Or.inl h
          · exact Or.inr (ih h)

/-- Bound preservation for `_store_skipped_key`. -/
theorem storeSkippedKey_length (st : RatchetState) (idx : Nat) (mk nonce : B)
    (hb : st.skipped_message_keys.length ≤ st.max_skip)
    (h1 : 1 ≤ st.max_skip) :
    (storeSkippedKey st idx mk nonce).skipped_message_keys.length
      ≤ st.max_skip := by
  simp only [storeSkippedKey]
  split
  case isTrue h =>
      have hlen : st.skipped_message_keys.length = st.max_skip :=
        le_antisymm hb h
      have hne : st.skipped_message_keys ≠ [] := by
        intro he
        rw [he] at hlen
        simp at hlen
        omega
      have hpop := dictPop_length_of_mem st.skipped_message_keys
        (minKeyOf st.skipped_message_keys) (minKeyOf_mem _ hne)
      have hins := dictInsert_length_le
        (dictPop st.skipped_message_keys (minKeyOf st.skipped_message_keys)).2
        idx (mk, nonce)
      omega
  case isFalse h =>
      have hins := dictInsert_length_le st.skipped_message_keys idx (mk, nonce)
      omega

theorem storeSkippedKey_max_skip (st : RatchetState) (idx : Nat)
    (mk nonce : B) :
    (storeSkippedKey st idx mk nonce).max_skip = st.max_skip := by
  simp only [storeSkippedKey]

/-- Bound preservation for the skip loop of `decrypt`. -/
theorem skipLoop_bound (n : Nat) : ∀ st : RatchetState,
    st.skipped_message_keys.length ≤ st.max_skip → 1 ≤ st.max_skip →
    (skipLoop n st).skipped_message_keys.length ≤ st.max_skip ∧
    (skipLoop n st).max_skip = st.max_skip := by
  induction n with
  | zero => intro st hb h1; exact ⟨hb, rfl⟩
  | succ n ih =>
      intro st hb h1
      simp only [skipLoop]
      have hstore := storeSkippedKey_length
        { st with recv_chain_key := (deriveMessageMaterial st.recv_chain_key st.recv_count).2.1 }
        st.recv_count (deriveMessageMaterial st.recv_chain_key st.recv_count).1
        (deriveMessageMaterial st.recv_chain_key st.recv_count).2.2 hb h1
      have hmax := storeSkippedKey_max_skip
        { st with recv_chain_key := (deriveMessageMaterial st.recv_chain_key st.recv_count).2.1 }
        st.recv_count (deriveMessageMaterial st.recv_chain_key st.recv_count).1
        (deriveMessageMaterial st.recv_chain_key st.recv_count).2.2
      have := ih
        { storeSkippedKey
            { st with recv_chain_key := (deriveMessageMaterial st.recv_chain_key st.recv_count).2.1 }
            st.recv_count (deriveMessageMaterial st.recv_chain_key st.recv_count).1
            (deriveMessageMaterial st.recv_chain_key st.recv_count).2.2 with
          recv_count := (storeSkippedKey
            { st with recv_chain_key := (deriveMessageMaterial st.recv_chain_key st.recv_count).2.1 }
            st.recv_count (deriveMessageMaterial st.recv_chain_key st.recv_count).1
            (deriveMessageMaterial st.recv_chain_key st.recv_count).2.2).recv_count + 1 }
        (by simpa [hmax] using hstore) (by simpa [hmax] using h1)
      simpa [hmax] using this

/-- The shared decryption tail never touches the state. -/
theorem finishDecrypt_state (st : RatchetState) (mk nonce : B) (pkt : Packet)
    (ad : B) : (finishDecrypt st mk nonce pkt ad).2 = st := by
  simp only [finishDecrypt]
  split <;> rfl

/-- Bound preservation across `decrypt`. -/
theorem ratchetDecrypt_cache_bound (st : RatchetState) (pkt : Packet) (ad : B)
    (hb : st.skipped_message_keys.length ≤ st.max_skip)
    (h1 : 1 ≤ st.max_skip) :
    (ratchetDecrypt st pkt ad).2.skipped_message_keys.length ≤ st.max_skip := by
  simp only [ratchetDecrypt]
  split
  case isTrue hlt =>
      rcases hpop : dictPop st.skipped_message_keys pkt.header.count
        with ⟨cached, rest⟩
      have hrest : rest.length ≤ st.skipped_message_keys.length := by
        have := dictPop_length_le st.skipped_message_keys pkt.header.count
        rw [hpop] at this
        exact this
      cases cached with
      | none => simpa using hb
      | some cv =>
          simp only
          split
          case isTrue h =>
              rw [finishDecrypt_state]
              simp only
              omega
          case isFalse h =>
              simp only
              omega
  case isFalse hge =>
      split
      case isTrue hsem =>
          rcases hdec : kemDecapsulate pkt.header.kem_ciphertext
            st.local_ratchet_private with e | ss
          · simpa using hb
          · simp only
            have hloop := skipLoop_bound (pkt.header.count - st.recv_count)
              { st with
                root_key := mixRoot (some st.root_key) ss st.combined_digest
                remote_ratchet_public := some pkt.header.ratchet_pub
                send_chain_key := deriveChainSeed
                  (mixRoot (some st.root_key) ss st.combined_digest)
                  st.combined_digest st.send_label
                recv_chain_key := deriveChainSeed
                  (mixRoot (some st.root_key) ss st.combined_digest)
                  st.combined_digest st.recv_label }
              hb h1
            split
            case isTrue h => rw [finishDecrypt_state]; exact hloop.1
            case isFalse h => exact hloop.1
      case isFalse hsem => simpa using hb

/-- C6: the skipped-message-key cache never holds more than `max_skip` entries
after any `encrypt` or `decrypt` operation, and when an insertion occurs while
the cache is full, the entry with the smallest (oldest) message index is
evicted — eviction is by index order, not insertion order. -/
theorem pqfsr_c6_skipped_cache_bound_eviction (st : RatchetState) (idx : Nat)
    (mk nonce : B) (pkt : Packet) (p ad : B) (sid c : Nat)
    (hb : st.skipped_message_keys.length ≤ st.max_skip)
    (h1 : 1 ≤ st.max_skip) :
    (storeSkippedKey st idx mk nonce).skipped_message_keys.length
      ≤ st.max_skip ∧
    ((dictKeys st.skipped_message_keys).Nodup →
      st.max_skip ≤ st.skipped_message_keys.length →
      idx ≠ minKeyOf st.skipped_message_keys →
      minKeyOf st.skipped_message_keys
          ∉ dictKeys (storeSkippedKey st idx mk nonce).skipped_message_keys ∧
        idx ∈ dictKeys (storeSkippedKey st idx mk nonce).skipped_message_keys ∧
        ∀ k ∈ dictKeys st.skipped_message_keys,
          k ≠ minKeyOf st.skipped_message_keys →
          k ∈ dictKeys (storeSkippedKey st idx mk nonce).skipped_message_keys) ∧
    (∀ out, ratchetEncrypt st p ad sid c = .ok out →
      out.2.1.skipped_message_keys = st.skipped_message_keys) ∧
    (ratchetDecrypt st pkt ad).2.skipped_message_keys.length ≤ st.max_skip := by
  refine ⟨storeSkippedKey_length st idx mk nonce hb h1, ?_, ?_, ?_⟩
  · intro hnd hfull hne
    simp only [storeSkippedKey, if_pos hfull]
    refine ⟨?_, ?_, ?_⟩
    · rw [mem_dictKeys_dictInsert]
      push_neg
      exact ⟨dictPop_not_mem_of_nodup _ _ hnd, fun he => hne he.symm⟩
    · rw [mem_dictKeys_dictInsert]
      exact Or.inr rfl
    · intro k hk hkne
      rw [mem_dictKeys_dictInsert]
      exact Or.inl (mem_dictPop_of_ne _ _ _ hkne hk)
  · intro out hout
    obtain ⟨root, sck, rck, sl, rl, cnt, rc, lpriv, lpub, rem, cd, ld, rd,
      skip, ms⟩ := st
    cases rem with
    | none => simp [ratchetEncrypt] at hout
    | some rpk =>
        simp only [ratchetEncrypt, Except.ok.injEq] at hout
        rw [← hout]
  · exact ratchetDecrypt_cache_bound st pkt ad hb h1

/-- C6 witness: a full cache (`max_skip = 3`, indices inserted in order
7, 2, 9) evicts index 2 — the smallest index, not the first inserted — when
index 11 is stored; `encrypt` leaves the cache untouched and `decrypt`
respects the bound. -/
theorem pqfsr_c6_witness :
    stFullW.skipped_message_keys.length ≤ stFullW.max_skip ∧
    1 ≤ stFullW.max_skip ∧
    ((storeSkippedKey stFullW 11 (.lit [1]) (.lit [1])).skipped_message_keys.length
        ≤ stFullW.max_skip ∧
      2 ∉ dictKeys (storeSkippedKey stFullW 11 (.lit [1]) (.lit [1])).skipped_message_keys ∧
      11 ∈ dictKeys (storeSkippedKey stFullW 11 (.lit [1]) (.lit [1])).skipped_message_keys ∧
      (ratchetDecrypt stFullW dummyPkt (.lit [])).2.skipped_message_keys.length
        ≤ stFullW.max_skip) := by
  refine ⟨by decide, by decide, ?_⟩
  have h := pqfsr_c6_skipped_cache_bound_eviction stFullW 11 (.lit [1])
    (.lit [1]) dummyPkt (.lit []) (.lit []) 0 0 (by decide) (by decide)
  have h2 := h.2.1 (by decide) (by decide) (by decide)
  have hmin : minKeyOf stFullW.skipped_message_keys = 2 := by decide
  refine ⟨h.1, ?_, h2.2.1, h.2.2.2⟩
  rw [← hmin]
  exact h2.1

/-- C7: for every ordered sequence of packets produced by one peer after a
completed handshake and decrypted by the other strictly in order, every
plaintext is recovered; and after in-order processing, decrypting any
previously processed packet again yields `MessageAlreadyProcessed`
(`ValueError("Message already processed")`), without mutating the state. -/
theorem pqfsr_c7_in_order_and_replay (hA hB ad : B) (sidA sidB : Nat)
    (ps : List B) (A Bo : Session) (sa sb : RatchetState)
    (hHS : runHandshake hA hB sidA sidB = .ok (A, Bo))
    (hsa : A.state = some sa) (hsb : Bo.state = some sb) :
    (recvAll sb (sendAll sa A.sid A.rctr ps ad).1 ad).1 = .ok ps ∧
    ∀ j pkt, (sendAll sa A.sid A.rctr ps ad).1.get? j = some pkt →
      ratchetDecrypt (recvAll sb (sendAll sa A.sid A.rctr ps ad).1 ad).2 pkt ad
        = (.error "Message already processed",
           (recvAll sb (sendAll sa A.sid A.rctr ps ad).1 ad).2) := by
  rw [runHandshake_eq] at hHS
  simp only [Except.ok.injEq, Prod.mk.injEq] at hHS
  obtain ⟨hA1, hB1⟩ := hHS
  subst hA1
  subst hB1
  simp only [aliceHS, Option.some.injEq] at hsa
  simp only [bobHS, Option.some.injEq] at hsb
  subst hsa
  subst hsb
  have hP : Paired (aliceStHS hA hB sidA sidB) (bobStHS hA hB sidA sidB) := by
    simp [Paired, aliceStHS, bobStHS,
      combineDigest_comm (hsLocalDigest hB) (hsLocalDigest hA)]
  obtain ⟨hRec, hPairF, hrcF, hskipF, hlenF, hcntF⟩ :=
    sendRecvAll_paired ps (aliceStHS hA hB sidA sidB)
      (bobStHS hA hB sidA sidB) sidA 3 ad hP
  refine ⟨hRec, ?_⟩
  intro j pkt hj
  simp only [aliceHS] at hj ⊢
  have hcount := hcntF j pkt hj
  obtain ⟨hjlt, -⟩ := List.get?_eq_some.mp hj
  rw [hlenF] at hjlt
  apply decrypt_replay
  · exact hskipF
  · rw [hcount, hrcF]
    have hrecv0 : (bobStHS hA hB sidA sidB).recv_count = 0 := rfl
    omega

/-- C7 witness: two concrete messages sent in order are both recovered, and
replaying the first packet afterwards is rejected as already processed. -/
theorem pqfsr_c7_witness :
    (recvAll (bobStHS HINT_ALICE HINT_BOB 0 1) sentW.1 (.lit [])).1
      = .ok [.lit [1], .lit [2]] ∧
    ratchetDecrypt (recvAll (bobStHS HINT_ALICE HINT_BOB 0 1) sentW.1 (.lit [])).2
        sentW0 (.lit [])
      = (.error "Message already processed",
         (recvAll (bobStHS HINT_ALICE HINT_BOB 0 1) sentW.1 (.lit [])).2) := by
  have h := pqfsr_c7_in_order_and_replay HINT_ALICE HINT_BOB (.lit []) 0 1
    [.lit [1], .lit [2]] (aliceHS HINT_ALICE HINT_BOB 0 1)
    (bobHS HINT_ALICE HINT_BOB 0 1) (aliceStHS HINT_ALICE HINT_BOB 0 1)
    (bobStHS HINT_ALICE HINT_BOB 0 1) (runHandshake_eq HINT_ALICE HINT_BOB 0 1)
    rfl rfl
  exact ⟨h.1, h.2 0 sentW0 (by decide)⟩

/-- C8: when `decrypt` fails with `SemanticTagMismatch` or
`MessageAlreadyProcessed`, the ratchet state is not mutated at all; when it
fails with `AuthenticationFailed` on a packet served from the skipped cache
(`header.count < recv_count`), `recv_count` is not advanced and the only
state change is the removal of the probed cache entry.  (For a fresh-index
packet the source advances the state before the tag check — the exception the
spec itself states.) -/
theorem pqfsr_c8_error_state_preservation (st : RatchetState) (pkt : Packet)
    (ad : B) :
    ((ratchetDecrypt st pkt ad).1 = .error "Semantic tag mismatch" →
      (ratchetDecrypt st pkt ad).2 = st) ∧
    ((ratchetDecrypt st pkt ad).1 = .error "Message already processed" →
      (ratchetDecrypt st pkt ad).2 = st) ∧
    (pkt.header.count < st.recv_count →
      (ratchetDecrypt st pkt ad).1 = .error "Authentication tag mismatch" →
      (ratchetDecrypt st pkt ad).2.recv_count = st.recv_count ∧
      (ratchetDecrypt st pkt ad).2
        = { st with skipped_message_keys :=
              (dictPop st.skipped_message_keys pkt.header.count).2 }) := by
  simp only [ratchetDecrypt]
  split
  case isTrue hlt =>
      rcases hpop : dictPop st.skipped_message_keys pkt.header.count
        with ⟨cached, rest⟩
      cases cached with
      | none =>
          refine ⟨?_, ?_, ?_⟩
          · intro h; simp at h
          · intro _; rfl
          · intro _ h; simp at h
      | some cv =>
          simp only
          split
          case isTrue hn =>
              simp only [finishDecrypt]
              split
              case isTrue ht =>
                  refine ⟨?_, ?_, ?_⟩
                  · intro h; simp at h
                  · intro h; simp at h
                  · intro _ h; simp at h
              case isFalse ht =>
                  refine ⟨?_, ?_, ?_⟩
                  · intro h; simp at h
                  · intro h; simp at h
                  · intro _ _
                    have hrest : rest = (dictPop st.skipped_message_keys pkt.header.count).2 := by
                      rw [hpop]
                    subst hrest
                    exact ⟨rfl, rfl⟩
          case isFalse hn =>
              refine ⟨?_, ?_, ?_⟩
              · intro h; simp at h
              · intro h; simp at h
              · intro _ h; simp at h
  case isFalse hge =>
      split
      case isTrue hsem =>
          rcases hdec : kemDecapsulate pkt.header.kem_ciphertext
            st.local_ratchet_private with e | ss
          · refine ⟨?_, ?_, ?_⟩
            · intro _; rfl
            · intro _; rfl
            · intro h; exact absurd h hge
          · simp only
            split
            case isTrue hn =>
                simp only [finishDecrypt]
                split
                case isTrue ht =>
                    refine ⟨?_, ?_, ?_⟩
                    · intro h; simp at h
                    · intro h; simp at h
                    · intro h; exact absurd h hge
                case isFalse ht =>
                    refine ⟨?_, ?_, ?_⟩
                    · intro h; simp at h
                    · intro h; simp at h
                    · intro h; exact absurd h hge
            case isFalse hn =>
                refine ⟨?_, ?_, ?_⟩
                · intro h; simp at h
                · intro h; simp at h
                · intro h; exact absurd h hge
      case isFalse hsem =>
          refine ⟨fun _ => rfl, ?_, ?_⟩
          · intro h; simp at h
          · intro h; exact absurd h hge

/-- C8 witness: a tampered far-future count is rejected as a semantic-tag
mismatch without touching the state; replaying an in-order packet is rejected
as already processed without touching the state; an authentication failure on
a cached entry removes only the probed entry and does not advance
`recv_count`. -/
theorem pqfsr_c8_witness :
    ((ratchetDecrypt bobStW pktFutureW (.lit [])).1 = .error "Semantic tag mismatch" ∧
      (ratchetDecrypt bobStW pktFutureW (.lit [])).2 = bobStW) ∧
    ((ratchetDecrypt bobSt1W pkt1W (.lit [])).1 = .error "Message already processed" ∧
      (ratchetDecrypt bobSt1W pkt1W (.lit [])).2 = bobSt1W) ∧
    (pktBadTagW.header.count < stCachedW.recv_count ∧
      (ratchetDecrypt stCachedW pktBadTagW (.lit [])).1 = .error "Authentication tag mismatch" ∧
      (ratchetDecrypt stCachedW pktBadTagW (.lit [])).2.recv_count = stCachedW.recv_count ∧
      (ratchetDecrypt stCachedW pktBadTagW (.lit [])).2
        = { stCachedW with skipped_message_keys :=
              (dictPop stCachedW.skipped_message_keys pktBadTagW.header.count).2 }) := by
  refine ⟨⟨by decide, ?_⟩, ⟨by decide, ?_⟩, by decide, by decide, ?_, ?_⟩
  · exact (pqfsr_c8_error_state_preservation bobStW pktFutureW (.lit [])).1
      (by decide)
  · exact (pqfsr_c8_error_state_preservation bobSt1W pkt1W (.lit [])).2.1
      (by decide)
  · exact ((pqfsr_c8_error_state_preservation stCachedW pktBadTagW (.lit [])).2.2
      (by decide) (by decide)).1
  · exact ((pqfsr_c8_error_state_preservation stCachedW pktBadTagW (.lit [])).2.2
      (by decide) (by decide)).2

theorem mem_insertByIdx (x y : Nat × B × B) (l : List (Nat × B × B)) :
    y ∈ insertByIdx x l ↔ y = x ∨ y ∈ l := by
  induction l with
  | nil => simp [insertByIdx]
  | cons e rest ih =>
      simp only [insertByIdx]
      split
      · simp
      · simp only [List.mem_cons, ih]
        tauto

theorem insertByIdx_pairwise (x : Nat × B × B) (l : List (Nat × B × B))
    (h : l.Pairwise (fun a b => a.1 ≤ b.1)) :
    (insertByIdx x l).Pairwise (fun a b => a.1 ≤ b.1) := by
  induction l with
  | nil => simp [insertByIdx]
  | cons e rest ih =>
      rw [List.pairwise_cons] at h
      simp only [insertByIdx]
      split
      case isTrue hle =>
          rw [List.pairwise_cons]
          refine ⟨?_, List.Pairwise.cons h.1 h.2⟩
          intro y hy
          rcases List.mem_cons.mp hy with hy | hy
          · exact hy ▸ hle
          · exact le_trans hle (h.1 y hy)
      case isFalse hle =>
          rw [List.pairwise_cons]
          refine ⟨?_, ih h.2⟩
          intro y hy
          rcases (mem_insertByIdx x y rest).mp hy with hy | hy
          · exact hy ▸ le_of_not_le hle
          · exact h.1 y hy

theorem sortByIdx_pairwise (l : List (Nat × B × B)) :
    (sortByIdx l).Pairwise (fun a b => a.1 ≤ b.1) := by
  induction l with
  | nil => simp [sortByIdx]
  | cons e rest ih => exact insertByIdx_pairwise e _ ih

theorem sortByIdx_of_pairwise (l : List (Nat × B × B))
    (h : l.Pairwise (fun a b => a.1 ≤ b.1)) : sortByIdx l = l := by
  induction l with
  | nil => rfl
  | cons e rest ih =>
      rw [List.pairwise_cons] at h
      simp only [sortByIdx]
      rw [ih h.2]
      cases rest with
      | nil => rfl
      | cons f rest2 =>
          simp only [insertByIdx]
          rw [if_pos (h.1 f (by simp))]

/-- Sorting the skipped-key items is idempotent (used for the one-round-trip
byte equality of the exported state). -/
theorem sortByIdx_idem (l : List (Nat × B × B)) :
    sortByIdx (sortByIdx l) = sortByIdx l :=
  sortByIdx_of_pairwise _ (sortByIdx_pairwise l)

/-- The `None`-or-hex serialization of an optional byte string is
idempotent. -/
theorem hexOrNull_idem (o : Option B) : hexOrNull (hexOrNull o) = hexOrNull o := by
  cases o with
  | none => rfl
  | some b =>
      by_cases h : blen b = 0
      · simp [hexOrNull, h]
      · simp [hexOrNull, h]

/-- Re-exporting a restored session yields the original payload, for every
ready session: the restored skipped list is already sorted and the restored
optional fields already passed the truthiness filter, so the second export
reproduces them unchanged. -/
theorem exportState_fromSerialized (s : Session) (pay : ExportPayload)
    (sid : Nat) (hexp : exportState s = .ok pay) :
    exportState (fromSerialized pay sid) = .ok pay := by
  rcases hst : s.state with _ | st
  · simp only [exportState, hst] at hexp
    exact absurd hexp (by simp)
  · simp only [exportState, hst] at hexp
    by_cases hr : s.ready
    · rw [if_pos hr] at hexp
      simp only [Except.ok.injEq] at hexp
      subst hexp
      simp only [exportState, fromSerialized, mkSession]
      rw [sortByIdx_idem, hexOrNull_idem, hexOrNull_idem]
      simp
    · rw [if_neg hr] at hexp
      exact absurd hexp (by simp)

/-- C9: for every ready session, `from_serialized(export_state())` yields a
session whose re-exported state equals the original export (the exported
blob is `json.dumps` of the payload, a deterministic injective encoding, so
payload equality is byte equality of the blobs), and the restored session
successfully decrypts the next valid packet addressed to it. -/
theorem pqfsr_c9_export_roundtrip_resume (s : Session) (pay : ExportPayload)
    (sidR : Nat) (st sa : RatchetState) (p ad : B) (sid c : Nat)
    (hexp : exportState s = .ok pay) (hst : s.state = some st)
    (hP : Paired sa st)
    (hrem : hexOrNull st.remote_ratchet_public = st.remote_ratchet_public)
    (hrd : hexOrNull st.remote_digest = st.remote_digest)
    (hsort : sortByIdx st.skipped_message_keys = st.skipped_message_keys) :
    (∀ (s' : Session) (pay' : ExportPayload) (sid' : Nat),
        exportState s' = .ok pay' →
        exportState (fromSerialized pay' sid') = .ok pay') ∧
    exportState (fromSerialized pay sidR) = .ok pay ∧
    ∃ out, ratchetEncrypt sa p ad sid c = .ok out ∧
      (sessionDecrypt (fromSerialized pay sidR) out.1 ad).1 = .ok p := by
  refine ⟨fun s' pay' sid' h => exportState_fromSerialized s' pay' sid' h,
    exportState_fromSerialized s pay sidR hexp, ?_⟩
  simp only [exportState, hst] at hexp
  by_cases hr : s.ready
  case neg =>
      rw [if_neg hr] at hexp
      exact absurd hexp (by simp)
  case pos =>
      rw [if_pos hr] at hexp
      simp only [Except.ok.injEq] at hexp
      subst hexp
      have hstate : (fromSerialized
          { root_key := st.root_key, send_chain_key := st.send_chain_key,
            recv_chain_key := st.recv_chain_key, send_label := st.send_label,
            recv_label := st.recv_label, send_count := st.send_count,
            recv_count := st.recv_count,
            local_ratchet_private := st.local_ratchet_private,
            local_ratchet_public := st.local_ratchet_public,
            remote_ratchet_public := hexOrNull st.remote_ratchet_public,
            combined_digest := st.combined_digest,
            local_digest := st.local_digest,
            remote_digest := hexOrNull st.remote_digest,
            skipped_keys := sortByIdx st.skipped_message_keys,
            max_skip := st.max_skip, semantic_hint := s.semantic_hint,
            is_initiator := s.is_initiator } sidR).state = some st := by
        simp only [fromSerialized]
        rw [hsort, hrem, hrd]
      obtain ⟨out, hE, _, _, _, hD1, _⟩ := pairedRoundtrip sa st p ad sid c hP
      refine ⟨out, hE, ?_⟩
      simp only [sessionDecrypt, hstate]
      exact hD1

/-- C9 witness: the concrete responder session right after the handshake
exports `payW`; restoring it re-exports the identical payload, and the
restored session decrypts the initiator's next packet. -/
theorem pqfsr_c9_witness :
    exportState (fromSerialized payW 5) = .ok payW ∧
    ∃ out, ratchetEncrypt aliceStW (.lit [7, 7]) (.lit []) 0 3 = .ok out ∧
      (sessionDecrypt (fromSerialized payW 5) out.1 (.lit [])).1 = .ok (.lit [7, 7]) :=
  (pqfsr_c9_export_roundtrip_resume hsW.2 payW 5 bobStW aliceStW (.lit [7, 7])
    (.lit []) 0 3 (by decide) (by decide) (by decide) (by decide) (by decide)
    (by decide)).2

/-- C10: every packet produced by `encrypt` carries, besides the header and
ciphertext, explicit clear-text `nonce` (16 bytes) and `auth_tag` fields, and
`decrypt` raises `ValueError("Nonce mismatch")` whenever the packet's nonce
differs from the nonce it derives for that index (fresh path) or finds in the
skipped cache (cached path) — for every value of the ciphertext and
authentication tag, hence even when they are otherwise valid. -/
theorem pqfsr_c10_nonce_field_checked (st : RatchetState) (pkt : Packet)
    (p ad : B) (sid c : Nat) (rpk : B)
    (h : st.remote_ratchet_public = some rpk) :
    (∃ out, ratchetEncrypt st p ad sid c = .ok out ∧
      blen out.1.nonce = 16 ∧
      ∃ mk, out.1.ciphertext = .xorKs mk out.1.nonce p ∧
        out.1.auth_tag = .hmacB mk (.cat out.1.ciphertext (.cat ad out.1.nonce)) ∧
        blen out.1.auth_tag = 32) ∧
    (∀ k n rest, pkt.header.count < st.recv_count →
      dictPop st.skipped_message_keys pkt.header.count = (some (k, n), rest) →
      pkt.nonce ≠ n →
      ratchetDecrypt st pkt ad
        = (.error "Nonce mismatch",
           { st with skipped_message_keys := rest })) ∧
    (∀ ss, ¬ pkt.header.count < st.recv_count →
      computeSemanticTag st.combined_digest pkt.header.count
        = pkt.header.semantic_tag →
      kemDecapsulate pkt.header.kem_ciphertext st.local_ratchet_private
        = .ok ss →
      (freshMaterial st pkt ss).2.2 ≠ pkt.nonce →
      (ratchetDecrypt st pkt ad).1 = .error "Nonce mismatch") := by
  refine ⟨?_, ?_, ?_⟩
  · obtain ⟨root, sck, rck, sl, rl, cnt, rc, lpriv, lpub, rem, cd, ld, rd,
      skip, ms⟩ := st
    simp only at h
    subst h
    exact ⟨_, rfl, rfl, _, rfl, rfl, rfl⟩
  · intro k n rest hlt hpop hne
    simp only [ratchetDecrypt, if_pos hlt, hpop]
    rw [if_neg (fun he => hne he.symm)]
  · intro ss hge hsem hdec hne
    simp only [ratchetDecrypt, if_neg hge, if_pos hsem, hdec]
    simp only [freshMaterial] at hne
    rw [if_neg hne]

/-- C10 witness: the concrete first packet carries a 16-byte nonce and the
HMAC tag over its ciphertext; tampering with the clear-text nonce of that
packet makes the responder's `decrypt` fail with `Nonce mismatch`, and a
cached-path packet whose nonce differs from the cached nonce is likewise
rejected, consuming the probed entry. -/
theorem pqfsr_c10_nonce_checked_witness :
    (∃ out, ratchetEncrypt aliceStW (.lit [7, 7]) (.lit []) 0 3 = .ok out ∧
      blen out.1.nonce = 16 ∧
      ∃ mk, out.1.ciphertext = .xorKs mk out.1.nonce (.lit [7, 7]) ∧
        out.1.auth_tag
          = .hmacB mk (.cat out.1.ciphertext (.cat (.lit []) out.1.nonce)) ∧
        blen out.1.auth_tag = 32) ∧
    ratchetDecrypt stCachedW pktBadNonceW (.lit [])
      = (.error "Nonce mismatch",
         { stCachedW with skipped_message_keys := [] }) ∧
    (ratchetDecrypt bobStW pktNonceTamperW (.lit [])).1 = .error "Nonce mismatch" := by
  refine ⟨?_, ?_, by decide⟩
  · exact (pqfsr_c10_nonce_field_checked aliceStW dummyPkt (.lit [7, 7])
      (.lit []) 0 3 (pkOf (.rnd 1 1 32)) (by decide)).1
  · exact (pqfsr_c10_nonce_field_checked stCachedW pktBadNonceW (.lit [1])
      (.lit []) 0 0 (.lit [1]) (by decide)).2.1 (.lit [11]) (.lit [22]) []
      (by decide) (by decide) (by decide)

end PQFSR
